import Mathlib

/-!
# probe-engine: resolver construction in package netx

A verification development for `netx/resolver.go`: the address normaliser
`withPort`, the instrumented wrapper `resolverWrapper`, the resolver factory
`newResolver`, the fallback chain `ChainResolvers` and the lifecycle of the HTTP
client used for DNS-over-HTTPS; for `Client.Query` of `internal/mlablocate`;
and for `runner.hasUnsupportedSettings` of `oonimkall`.

## Strings

A Go string is a sequence of bytes. It is modelled by `List Char`, one `Char`
per byte (the bytes 0..255 are the code points 0..255). The theorems quantify
over every list of characters, hence over every byte string. All the bytes the
code compares against (`:`, `[`, `]`) and the texts it searches for are ASCII.
-/

namespace Netx

/-- A Go string: the list of its bytes. -/
abbrev GoString := List Char

/-! ## Go standard library: package `strings` and `internal/bytealg` -/

/-- Go `bytealg.IndexByteString(s, c)`: the index of the first `c` in `s`; `none`
stands for the result `-1`. -/
def IndexByteString : GoString → Char → Option Nat
  | [], _ => none
  | x :: xs, c => if x = c then some 0 else (IndexByteString xs c).map (· + 1)

/-- Go `bytealg.LastIndexByteString(s, c)`: the index of the last `c` in `s`;
`none` stands for the result `-1`. -/
def LastIndexByteString : GoString → Char → Option Nat
  | [], _ => none
  | x :: xs, c =>
    match LastIndexByteString xs c with
    | some i => some (i + 1)
    | none => if x = c then some 0 else none

/-- Go `strings.HasPrefix(s, p)`. -/
def HasPrefix : GoString → GoString → Bool
  | _, [] => true
  | [], _ :: _ => false
  | x :: xs, y :: ys => x = y && HasPrefix xs ys

/-- Go `strings.Contains(s, substr)`: `substr` occurs in `s` at some offset. -/
def Contains : GoString → GoString → Bool
  | [], substr => HasPrefix [] substr
  | x :: xs, substr => HasPrefix (x :: xs) substr || Contains xs substr

/-! ## Go standard library: package `net` -/

/-- Go `net.AddrError`. -/
structure AddrError where
  Err : GoString
  Addr : GoString
deriving DecidableEq, Repr

/-- Go `(*AddrError).Error()`: the reason, preceded by the address when there is one. -/
def AddrError.Error (e : AddrError) : GoString :=
  if e.Addr ≠ [] then "address ".toList ++ e.Addr ++ ": ".toList ++ e.Err else e.Err

/-- The constant `missingPort` of `net.SplitHostPort`. -/
def missingPort : GoString := "missing port in address".toList

/-- The constant `tooManyColons` of `net.SplitHostPort`. -/
def tooManyColons : GoString := "too many colons in address".toList

/-- The closure `addrErr` of `net.SplitHostPort`. -/
def addrErr (addr why : GoString) : Except AddrError (GoString × GoString) :=
  .error { Err := why, Addr := addr }

/-- The tail of `net.SplitHostPort`, after `host`, `j` and `k` are known: no `[`
from offset `j` on, no `]` from offset `k` on, and the port is what follows the
last colon (offset `i`). -/
def splitTail (hostport host : GoString) (i j k : Nat) :
    Except AddrError (GoString × GoString) :=
  if (IndexByteString (hostport.drop j) '[').isSome then
    addrErr hostport "unexpected '[' in address".toList
  else if (IndexByteString (hostport.drop k) ']').isSome then
    addrErr hostport "unexpected ']' in address".toList
  else
    .ok (host, hostport.drop (i + 1))

/-- Go `net.SplitHostPort(hostport)`: splits `host:port`, `[host]:port` or
`[host%zone]:port` into host and port, or fails with an `AddrError`. -/
def SplitHostPort (hostport : GoString) : Except AddrError (GoString × GoString) :=
  -- The port starts after the last colon.
  match LastIndexByteString hostport ':' with
  | none => addrErr hostport missingPort
  | some i =>
    if hostport.head? = some '[' then
      -- Expect the first ']' just before the last ':'.
      match IndexByteString hostport ']' with
      | none => addrErr hostport "missing ']' in address".toList
      | some e =>
        if e + 1 = hostport.length then
          -- There can't be a ':' behind the ']' now.
          addrErr hostport missingPort
        else if e + 1 = i then
          -- The expected result.
          splitTail hostport ((hostport.take e).drop 1) i 1 (e + 1)
        else if hostport.get? (e + 1) = some ':' then
          addrErr hostport tooManyColons
        else
          addrErr hostport missingPort
    else
      let host := hostport.take i
      if (IndexByteString host ':').isSome then
        addrErr hostport tooManyColons
      else
        splitTail hostport host i 0 0

/-- Go `net.JoinHostPort(host, port)`: a host with a colon is taken for a literal
IPv6 address and enclosed in square brackets. -/
def JoinHostPort (host port : GoString) : GoString :=
  if (IndexByteString host ':').isSome then
    "[".toList ++ host ++ "]:".toList ++ port
  else
    host ++ ":".toList ++ port

/-! ## `netx/resolver.go`: address normalisation -/

/-- Function `withPort(address, port)` of `netx/resolver.go`. -/
def withPort (address port : GoString) : GoString :=
  -- Handle the case where port was not specified.
  match SplitHostPort address with
  | .error err =>
    if Contains err.Error "missing port in address".toList then
      JoinHostPort address port
    else
      address
  | .ok _ => address

/-! ## `netx/resolver.go`: the data model -/

/-- Go `time.Time`: an instant, in nanoseconds. -/
abbrev Time := Nat

/-- Interface `modelx.Handler`: the instrumentation hook. `handlers.NoHandler` and
`handlers.StdoutHandler` are the two handlers of package `handlers`; `custom`
stands for any other implementation. Go compares handlers with `==`. -/
inductive Handler where
  | NoHandler
  | StdoutHandler
  | custom (id : Nat)
deriving DecidableEq, Repr

/-- A Go `error` value, with the text `Error()` returns. -/
structure Error where
  text : GoString
deriving DecidableEq, Repr

/-- Go `errors.New(text)`. -/
def errorsNew (text : GoString) : Error := { text := text }

/-- Go `net.MX`. -/
structure MX where
  Host : GoString
  Pref : Nat
deriving DecidableEq, Repr

/-- Go `net.NS`. -/
structure NS where
  Host : GoString
deriving DecidableEq, Repr

/-- What a lookup method returns in a world `w`: the Go pair `(value, error)`
and the world after the call. The world `σ` is everything a resolver may read
or change (the network, counters such as `brokenresolver.NumErrors`). -/
abbrev Lookup (Ctx σ α : Type) := Ctx → GoString → σ → (α × Option Error) × σ

/-- Interface `modelx.DNSResolver`: the interface with the five lookup methods. A value of
the interface is the record of its methods. `Ctx` is `context.Context`. -/
structure DNSResolver (Ctx σ : Type) where
  LookupAddr : Lookup Ctx σ (List GoString)
  LookupCNAME : Lookup Ctx σ GoString
  LookupHost : Lookup Ctx σ (List GoString)
  LookupMX : Lookup Ctx σ (List MX)
  LookupNS : Lookup Ctx σ (List NS)

/-- Modelled from the spec: `newDialer` (the Child Dialer Factory, absent from
the sources at hand) "produces a dialer configured identically to the engine's
general-purpose dialer (same timeouts, same instrumentation hook)". A dialer is
represented by the configuration it was built from. -/
structure Dialer where
  beginning : Time
  handler : Handler
deriving DecidableEq, Repr

/-- Modelled from the spec: see `Dialer`. -/
def newDialer (beginning : Time) (handler : Handler) : Dialer :=
  { beginning := beginning, handler := handler }

/-- Modelled from the spec: `newHTTPTransport` is absent from the sources at
hand; the transport it returns is represented by the arguments of the call
(the proxy argument is always `http.ProxyFromEnvironment`). -/
structure HTTPTransport where
  beginning : Time
  handler : Handler
  dialer : Dialer
  DisableKeepAlives : Bool
deriving DecidableEq, Repr

/-- Modelled from the spec: see `HTTPTransport`. -/
def newHTTPTransport (beginning : Time) (handler : Handler) (dialer : Dialer)
    (disableKeepAlives : Bool) : HTTPTransport :=
  { beginning := beginning, handler := handler, dialer := dialer,
    DisableKeepAlives := disableKeepAlives }

/-- Go `http.Client`, with the one field the code sets. -/
structure HTTPClient where
  Transport : HTTPTransport
deriving DecidableEq, Repr

/-- A `*http.Client`: `none` is `nil`, `some a` the client allocated at address `a`. -/
abbrev ClientPtr := Option Nat

/-- The explicit process state of `netx/resolver.go`: the `http.Client` values
allocated so far (a client's address is its index), and the two package
variables `dohClientHandle` and `dohClientOnce` (`true` once `Do` has run). -/
structure Process where
  clients : List HTTPClient
  dohClientHandle : ClientPtr
  dohClientOnce : Bool
deriving DecidableEq, Repr

/-- The state at process start: nothing allocated, `dohClientHandle == nil`,
`dohClientOnce` not yet used. -/
def Process.start : Process :=
  { clients := [], dohClientHandle := none, dohClientOnce := false }

/-- Go `&http.Client{Transport: transport}`: allocates a client at a fresh address. -/
def Process.alloc (s : Process) (c : HTTPClient) : Nat × Process :=
  (s.clients.length, { s with clients := s.clients ++ [c] })

/-! ## `netx/resolver.go`: the client for DNS-over-HTTPS -/

/-- Function `newHTTPClientForDoH(beginning, handler)` of `netx/resolver.go`, over the
explicit process state. `now₁` and `now₂` are the values the two calls of
`time.Now()` inside the `dohClientOnce.Do` closure return. -/
def newHTTPClientForDoH (now₁ now₂ : Time) (beginning : Time) (handler : Handler)
    (s : Process) : ClientPtr × Process :=
  if handler = Handler.NoHandler then
    -- dohClientOnce.Do(func() { ... })
    let s1 :=
      if s.dohClientOnce then s
      else
        let transport :=
          newHTTPTransport now₁ Handler.NoHandler (newDialer now₂ handler) false
        let (a, s0) := s.alloc { Transport := transport }
        { s0 with dohClientHandle := some a, dohClientOnce := true }
    (s1.dohClientHandle, s1)
  else
    let transport := newHTTPTransport beginning handler (newDialer beginning handler) true
    let (a, s0) := s.alloc { Transport := transport }
    (some a, s0)

/-! ## `netx/resolver.go`: the instrumented wrapper -/

/-- The functions of this repository that `netx/resolver.go` calls and whose
code is absent from the sources at hand, as parameters: `maybeWithMeasurementRoot`
and the five backend constructors of package `netx/internal/resolver`. -/
structure Deps (Ctx σ : Type) where
  maybeWithMeasurementRoot : Ctx → Time → Handler → Ctx
  NewResolverSystem : DNSResolver Ctx σ
  NewResolverHTTPS : ClientPtr → GoString → DNSResolver Ctx σ
  NewResolverTLS : Dialer → GoString → DNSResolver Ctx σ
  NewResolverTCP : Dialer → GoString → DNSResolver Ctx σ
  NewResolverUDP : Dialer → GoString → DNSResolver Ctx σ

/-- The struct `resolverWrapper`. -/
structure resolverWrapper (Ctx σ : Type) where
  beginning : Time
  handler : Handler
  resolver : DNSResolver Ctx σ

/-- Function `newResolverWrapper(beginning, handler, resolver)`. -/
def newResolverWrapper {Ctx σ : Type} (beginning : Time) (handler : Handler)
    (resolver : DNSResolver Ctx σ) : resolverWrapper Ctx σ :=
  { beginning := beginning, handler := handler, resolver := resolver }

/-- Method `(*resolverWrapper).LookupAddr`. -/
def resolverWrapper.LookupAddr {Ctx σ : Type} (D : Deps Ctx σ) (r : resolverWrapper Ctx σ) :
    Lookup Ctx σ (List GoString) := fun ctx addr =>
  let ctx := D.maybeWithMeasurementRoot ctx r.beginning r.handler
  r.resolver.LookupAddr ctx addr

/-- Method `(*resolverWrapper).LookupCNAME`. -/
def resolverWrapper.LookupCNAME {Ctx σ : Type} (D : Deps Ctx σ) (r : resolverWrapper Ctx σ) :
    Lookup Ctx σ GoString := fun ctx host =>
  let ctx := D.maybeWithMeasurementRoot ctx r.beginning r.handler
  r.resolver.LookupCNAME ctx host

/-- Method `(*resolverWrapper).LookupHost`. -/
def resolverWrapper.LookupHost {Ctx σ : Type} (D : Deps Ctx σ) (r : resolverWrapper Ctx σ) :
    Lookup Ctx σ (List GoString) := fun ctx hostname =>
  let ctx := D.maybeWithMeasurementRoot ctx r.beginning r.handler
  r.resolver.LookupHost ctx hostname

/-- Method `(*resolverWrapper).LookupMX`. -/
def resolverWrapper.LookupMX {Ctx σ : Type} (D : Deps Ctx σ) (r : resolverWrapper Ctx σ) :
    Lookup Ctx σ (List MX) := fun ctx name =>
  let ctx := D.maybeWithMeasurementRoot ctx r.beginning r.handler
  r.resolver.LookupMX ctx name

/-- Method `(*resolverWrapper).LookupNS`. -/
def resolverWrapper.LookupNS {Ctx σ : Type} (D : Deps Ctx σ) (r : resolverWrapper Ctx σ) :
    Lookup Ctx σ (List NS) := fun ctx name =>
  let ctx := D.maybeWithMeasurementRoot ctx r.beginning r.handler
  r.resolver.LookupNS ctx name

/-- A `*resolverWrapper` used as a `modelx.DNSResolver`: its method set. -/
def resolverWrapper.asDNSResolver {Ctx σ : Type} (D : Deps Ctx σ)
    (r : resolverWrapper Ctx σ) : DNSResolver Ctx σ :=
  { LookupAddr := r.LookupAddr D
    LookupCNAME := r.LookupCNAME D
    LookupHost := r.LookupHost D
    LookupMX := r.LookupMX D
    LookupNS := r.LookupNS D }

/-! ## `netx/resolver.go`: the resolver factory -/

/-- Function `newResolver(beginning, handler, network, address)` of `netx/resolver.go`:
the Go pair `(resolver, error)`, `none` being `nil`, and the process state
after the call. `now₁` and `now₂` are passed on to `newHTTPClientForDoH`. -/
def newResolver {Ctx σ : Type} (D : Deps Ctx σ) (now₁ now₂ : Time) (beginning : Time)
    (handler : Handler) (network address : GoString) (s : Process) :
    (Option (DNSResolver Ctx σ) × Option Error) × Process :=
  if network = "system".toList ∨ network = "".toList then
    ((some ((newResolverWrapper beginning handler D.NewResolverSystem).asDNSResolver D),
      none), s)
  else if network = "doh".toList then
    let (client, s1) := newHTTPClientForDoH now₁ now₂ beginning handler s
    ((some ((newResolverWrapper beginning handler
      (D.NewResolverHTTPS client address)).asDNSResolver D), none), s1)
  else if network = "dot".toList then
    ((some ((newResolverWrapper beginning handler
      (D.NewResolverTLS (newDialer beginning handler)
        (withPort address "853".toList))).asDNSResolver D), none), s)
  else if network = "tcp".toList then
    ((some ((newResolverWrapper beginning handler
      (D.NewResolverTCP (newDialer beginning handler)
        (withPort address "53".toList))).asDNSResolver D), none), s)
  else if network = "udp".toList then
    ((some ((newResolverWrapper beginning handler
      (D.NewResolverUDP (newDialer beginning handler)
        (withPort address "53".toList))).asDNSResolver D), none), s)
  else
    ((none, some (errorsNew "resolver.New: unsupported network value".toList)), s)

/-- Function `NewResolver(network, address)`: `now₀` is the value of its `time.Now()`. -/
def NewResolver {Ctx σ : Type} (D : Deps Ctx σ) (now₀ now₁ now₂ : Time)
    (network address : GoString) (s : Process) :
    (Option (DNSResolver Ctx σ) × Option Error) × Process :=
  newResolver D now₁ now₂ now₀ Handler.NoHandler network address s

/-! ## `netx/internal/resolver/chainresolver` -/

/-- Modelled from the spec: a method of the resolver `chainresolver.New` returns
(package `chainresolver` is absent from the sources at hand). "For every
capability method: call primary; if it fails, call secondary with the same
inputs and the same ambient cancellable context; return secondary's result
(success or failure) as the chain's result." -/
def chainLookup {Ctx σ α : Type} (primary secondary : Lookup Ctx σ α) : Lookup Ctx σ α :=
  fun ctx input w =>
    let (r, w1) := primary ctx input w
    if r.2.isSome then secondary ctx input w1 else (r, w1)

/-- Modelled from the spec: `chainresolver.New(primary, secondary)`, the Chain
Resolver (package `chainresolver` is absent from the sources at hand). -/
def chainresolverNew {Ctx σ : Type} (primary secondary : DNSResolver Ctx σ) :
    DNSResolver Ctx σ :=
  { LookupAddr := chainLookup primary.LookupAddr secondary.LookupAddr
    LookupCNAME := chainLookup primary.LookupCNAME secondary.LookupCNAME
    LookupHost := chainLookup primary.LookupHost secondary.LookupHost
    LookupMX := chainLookup primary.LookupMX secondary.LookupMX
    LookupNS := chainLookup primary.LookupNS secondary.LookupNS }

/-- Function `ChainResolvers(primary, secondary)` of `netx/resolver.go`. -/
def ChainResolvers {Ctx σ : Type} (primary secondary : DNSResolver Ctx σ) :
    DNSResolver Ctx σ :=
  chainresolverNew primary secondary

/-! ## Vocabulary of the statements -/

/-- A text without any of the bytes `:`, `[` and `]`, such as a domain name, an
IPv4 address or a decimal port. -/
def Plain (s : GoString) : Prop := ':' ∉ s ∧ '[' ∉ s ∧ ']' ∉ s

instance (s : GoString) : Decidable (Plain s) := by
  unfold Plain
  exact inferInstance

/-- The transport names `newResolver` accepts. -/
def supportedNetworks : List GoString :=
  ["".toList, "system".toList, "udp".toList, "tcp".toList, "dot".toList, "doh".toList]

/-- The fallback rule in the words of the specification, for one lookup method:
`chain` returns the result of `primary` when `primary` succeeds; when `primary`
fails it returns exactly the result of `secondary` for the same context and
input, called in the world `primary` left; so `chain` fails only if both fail,
and then with the failure of `secondary`. -/
def FallsBack {Ctx σ α : Type} (primary secondary chain : Lookup Ctx σ α) : Prop :=
  ∀ (ctx : Ctx) (input : GoString) (w : σ),
    ((primary ctx input w).1.2 = none → chain ctx input w = primary ctx input w) ∧
    ((primary ctx input w).1.2 ≠ none →
      chain ctx input w = secondary ctx input (primary ctx input w).2) ∧
    ((chain ctx input w).1.2 ≠ none →
      (primary ctx input w).1.2 ≠ none ∧
      (secondary ctx input (primary ctx input w).2).1.2 ≠ none ∧
      (chain ctx input w).1.2 = (secondary ctx input (primary ctx input w).2).1.2)

/-- One call of `newHTTPClientForDoH`: its arguments, and the two readings of
the clock it may take. -/
structure DoHCall where
  now₁ : Time
  now₂ : Time
  beginning : Time
  handler : Handler
deriving DecidableEq, Repr

/-- Successive calls of `newHTTPClientForDoH` from the state `s`: the clients
returned, in order, and the state after the last call. -/
def runDoHCalls : List DoHCall → Process → List ClientPtr × Process
  | [], s => ([], s)
  | c :: cs, s =>
    let r := newHTTPClientForDoH c.now₁ c.now₂ c.beginning c.handler s
    let rest := runDoHCalls cs r.2
    (r.1 :: rest.1, rest.2)

/-- The calls of a sequence that pass a handler other than `NoHandler`. -/
def instrumentedCalls (cs : List DoHCall) : List DoHCall :=
  cs.filter (fun c => decide (c.handler ≠ Handler.NoHandler))

/-- Whether a sequence has a call that passes `NoHandler`. -/
def hasPlainCall (cs : List DoHCall) : Bool :=
  cs.any (fun c => decide (c.handler = Handler.NoHandler))

/-- The states the package variables can be in: before `dohClientOnce.Do` has
run, `dohClientHandle` is nil; afterwards it points to an allocated client. -/
def Process.WellFormed (s : Process) : Prop :=
  (s.dohClientOnce = true → ∃ a, s.dohClientHandle = some a ∧ a < s.clients.length) ∧
  (s.dohClientOnce = false → s.dohClientHandle = none)

/-- What a run of calls `cs` from a well-formed state `s`, returning `rs` and
ending in `t`, satisfies. -/
structure RunFacts (cs : List DoHCall) (s : Process) (rs : List ClientPtr) (t : Process) :
    Prop where
  wellFormed : t.WellFormed
  allocated : t.clients.length = s.clients.length + (instrumentedCalls cs).length +
    (if s.dohClientOnce = false ∧ hasPlainCall cs = true then 1 else 0)
  kept : s.dohClientOnce = true → t.dohClientHandle = s.dohClientHandle ∧ t.dohClientOnce = true
  fresh : s.dohClientOnce = false → ∀ a, t.dohClientHandle = some a → s.clients.length ≤ a
  shared : ∀ (i : Nat) (c : DoHCall), cs[i]? = some c → c.handler = Handler.NoHandler →
    rs[i]? = some t.dohClientHandle ∧ t.dohClientOnce = true
  own : ∀ (i : Nat) (c : DoHCall), cs[i]? = some c → c.handler ≠ Handler.NoHandler →
    ∃ a, rs[i]? = some (some a) ∧ s.clients.length ≤ a ∧ a < t.clients.length ∧
      t.dohClientHandle ≠ some a
  apart : ∀ (i j : Nat) (ci cj : DoHCall), i < j → cs[i]? = some ci → cs[j]? = some cj →
    ci.handler ≠ Handler.NoHandler → cj.handler ≠ Handler.NoHandler → rs[i]? ≠ rs[j]?

/-! ## Sample resolvers for the examples -/

/-- A sample lookup that always fails with "no such host" and counts its calls
in the world, a natural number (as `brokenresolver` of the tests counts in
`NumErrors`). -/
def brokenLookup {α : Type} (zero : α) : Lookup Unit Nat α :=
  fun _ _ n => ((zero, some (errorsNew "no such host".toList)), n + 1)

/-- A sample resolver every lookup of which fails. -/
def brokenResolver : DNSResolver Unit Nat :=
  { LookupAddr := brokenLookup []
    LookupCNAME := brokenLookup []
    LookupHost := brokenLookup []
    LookupMX := brokenLookup []
    LookupNS := brokenLookup [] }

/-- A sample resolver that answers every lookup with a fixed record and leaves
the world as it is. -/
def fixedResolver : DNSResolver Unit Nat :=
  { LookupAddr := fun _ _ n => ((["dns.google".toList], none), n)
    LookupCNAME := fun _ _ n => (("dns.google.".toList, none), n)
    LookupHost := fun _ _ n => ((["8.8.8.8".toList], none), n)
    LookupMX := fun _ _ n => (([{ Host := "mx.example.org.".toList, Pref := 10 }], none), n)
    LookupNS := fun _ _ n => (([{ Host := "ns.example.org.".toList }], none), n) }

/-- Sample parameters: every backend is the fixed resolver and the context is
the unit type. -/
def sampleDeps : Deps Unit Nat :=
  { maybeWithMeasurementRoot := fun ctx _ _ => ctx
    NewResolverSystem := fixedResolver
    NewResolverHTTPS := fun _ _ => fixedResolver
    NewResolverTLS := fun _ _ => fixedResolver
    NewResolverTCP := fun _ _ => fixedResolver
    NewResolverUDP := fun _ _ => fixedResolver }

end Netx

/-! # Package `internal/mlablocate` -/

namespace Mlablocate

open Netx

/-- Go `url.URL`, with the fields `internal/mlablocate` reads or sets. -/
structure URL where
  Scheme : GoString
  Host : GoString
  Path : GoString
  RawQuery : GoString
deriving DecidableEq, Repr

/-- Go `http.Request`: the method, the URL and the header lines, in the order
they were added. -/
structure Request where
  Method : GoString
  URL : URL
  Header : List (GoString × GoString)
deriving DecidableEq, Repr

/-- Go `http.Response`, as `Query` sees it: the status code, and what
`ioutil.ReadAll(resp.Body)` returns, the bytes read and the error. -/
structure Response where
  StatusCode : Int
  Body : GoString × Option Error
deriving DecidableEq, Repr

/-- An argument of a call of `Logger.Debugf`. -/
inductive LogArg where
  | url (u : URL)
  | text (t : GoString)
deriving DecidableEq, Repr

/-- A call of `c.Logger.Debugf(format, arg)`. The logger is represented by the
calls it receives. -/
structure LogCall where
  format : GoString
  arg : LogArg
deriving DecidableEq, Repr

/-- The struct `Client`. The field `HTTPClient` is represented by its method `Do`,
the field `NewRequest` returns the URL it was given, as it left it, next to the
request or the error; the field `Logger` is represented by the calls `Query`
returns. `Ctx` is `context.Context`. -/
structure Client (Ctx : Type) where
  HTTPClient : Request → Except Error Response
  Hostname : GoString
  NewRequest : Ctx → URL → URL × Except Error Request
  Scheme : GoString
  UserAgent : GoString

/-- The struct `locateResult`. -/
structure locateResult where
  FQDN : GoString
deriving DecidableEq, Repr

/-- Go `json.Unmarshal(data, &result)`, as a parameter: from the bytes and the
value of `result` before the call, the value of `result` after the call and
the error. -/
abbrev Unmarshal := GoString → locateResult → locateResult × Option Error

/-- Go `fmt.Errorf("mlablocate: non-200 status code: %d", code)`. -/
def errNon200 (code : Int) : Error :=
  { text := "mlablocate: non-200 status code: ".toList ++ (toString code).toList }

/-- Method `(*Client).Query(ctx, tool)` of `internal/mlablocate/mlablocate.go`: the
Go pair `(string, error)`, and the calls of `c.Logger.Debugf` in order. -/
def Query {Ctx : Type} (jsonUnmarshal : Unmarshal) (c : Client Ctx) (ctx : Ctx)
    (tool : GoString) : (GoString × Option Error) × List LogCall :=
  let URL : URL := { Scheme := c.Scheme, Host := c.Hostname, Path := tool, RawQuery := [] }
  match c.NewRequest ctx URL with
  | (_, .error err) => (([], some err), [])
  | (URL, .ok req) =>
    let req := { req with Header := req.Header ++ [("User-Agent".toList, c.UserAgent)] }
    let log1 : List LogCall := [⟨"mlablocate: GET %s".toList, .url URL⟩]
    match c.HTTPClient req with
    | .error err => (([], some err), log1)
    | .ok resp =>
      if resp.StatusCode ≠ 200 then
        (([], some (errNon200 resp.StatusCode)), log1)
      else
        match resp.Body with
        | (_, some err) => (([], some err), log1)
        | (data, none) =>
          let log2 : List LogCall := log1 ++ [⟨"mlablocate: %s".toList, .text data⟩]
          match jsonUnmarshal data { FQDN := [] } with
          | (_, some err) => (([], some err), log2)
          | (result, none) =>
            if result.FQDN = [] then
              (([], some (errorsNew "mlablocate: returned empty FQDN".toList)), log2)
            else
              ((result.FQDN, none), log2)

/-! ## Samples for the examples -/

/-- A sample decoder: it accepts the bodies that start with `{"fqdn":"` and
end with `"}` and stores what stands between them, and `{}`; it rejects every
other body. -/
def sampleUnmarshal : Unmarshal := fun data result =>
  if data = "\x7b\x7d".toList then (result, none)
  else if HasPrefix data "\x7b\"fqdn\":\"".toList ∧
      HasPrefix data.reverse "\x7d\"".toList ∧ 11 ≤ data.length then
    ({ FQDN := (data.drop 9).take (data.length - 11) }, none)
  else (result, some (errorsNew "invalid character".toList))

/-- A sample client: the request is a GET of the URL, and the server answers
with the given status and body. -/
def sampleClient (status : Int) (body : GoString) : Client Unit :=
  { HTTPClient := fun _ => .ok { StatusCode := status, Body := (body, none) }
    Hostname := "locate.measurementlab.net".toList
    NewRequest := fun _ u => (u, .ok { Method := "GET".toList, URL := u, Header := [] })
    Scheme := "https".toList
    UserAgent := "miniooni/0.1.0".toList }

end Mlablocate

/-! # Package `oonimkall` -/

namespace Oonimkall

open Netx

/-- The constant `failureStartup` of `oonimkall/runner.go`. -/
def failureStartup : GoString := "failure.startup".toList

/-- The struct `eventFailureGeneric`. -/
structure eventFailureGeneric where
  Failure : GoString
deriving DecidableEq, Repr

/-- The values `Emit` is called with (its parameter has type `interface{}`):
an `eventFailureGeneric`, or an `eventValue{}`. -/
inductive Value where
  | failureGeneric (v : eventFailureGeneric)
  | eventValue
deriving DecidableEq, Repr

/-- The struct `eventRecord`. -/
structure eventRecord where
  Key : GoString
  Value : Value
deriving DecidableEq, Repr

/-- The channel `out chan<- *eventRecord` and its consumer: the records
delivered so far, and for the sends to come whether the consumer takes the
record before the timer of 250 ms fires (`ready 0` is about the next send). -/
structure Chan where
  sent : List eventRecord
  ready : Nat → Bool

/-- Go `(*atomicx.Int64).Add(1)`: addition of 64-bit signed integers. -/
def int64Add (a b : Int) : Int := (a + b + 2 ^ 63) % 2 ^ 64 - 2 ^ 63

/-- The struct `eventEmitter`. The map `disabled` is represented by its lookup,
`false` for an absent key. -/
structure eventEmitter where
  disabled : GoString → Bool
  out : Chan
  timeouts : Int

/-- Function `newEventEmitter(disabledEvents, out)`. -/
def newEventEmitter (disabledEvents : List GoString) (out : Chan) : eventEmitter :=
  { disabled := disabledEvents.foldl
      (fun m eventname => fun key => if key = eventname then true else m key)
      (fun _ => false)
    out := out
    timeouts := 0 }

/-- Method `(*eventEmitter).Emit(key, value)`: nothing for a disabled key;
otherwise the `select` either delivers the record or, after 250 ms, counts a
timeout. -/
def eventEmitter.Emit (ee : eventEmitter) (key : GoString) (value : Value) : eventEmitter :=
  if ee.disabled key = true then ee
  else if ee.out.ready 0 then
    { ee with out := { sent := ee.out.sent ++ [{ Key := key, Value := value }]
                       ready := fun n => ee.out.ready (n + 1) } }
  else
    { ee with timeouts := int64Add ee.timeouts 1
              out := { ee.out with ready := fun n => ee.out.ready (n + 1) } }

/-- Method `(*eventEmitter).EmitFailureGeneric(name, failure)`. -/
def eventEmitter.EmitFailureGeneric (ee : eventEmitter) (name failure : GoString) :
    eventEmitter :=
  ee.Emit name (.failureGeneric { Failure := failure })

/-- Method `(*eventEmitter).EmitFailureStartup(failure)`. -/
def eventEmitter.EmitFailureStartup (ee : eventEmitter) (failure : GoString) : eventEmitter :=
  ee.EmitFailureGeneric failureStartup failure

/-- The options of a settings record that `hasUnsupportedSettings` reads (the
declaration of the type is absent from the sources at hand). -/
structure settingsOptions where
  Backend : GoString
  CABundlePath : GoString
  GeoIPASNPath : GoString
  GeoIPCountryPath : GoString
  NoFileReport : Bool
  ProbeASN : GoString
  ProbeCC : GoString
  ProbeIP : GoString
  ProbeNetworkName : GoString
  RandomizeInput : Bool
deriving DecidableEq, Repr

/-- The fields of `settingsRecord` that `newRunner` and `hasUnsupportedSettings`
read (the declaration of the type is absent from the sources at hand).
`InputFilepaths` is a slice: `none` is `nil`. -/
structure settingsRecord where
  DisabledEvents : List GoString
  InputFilepaths : Option (List GoString)
  Options : settingsOptions
  OutputFilepath : GoString
deriving DecidableEq, Repr

/-- The type `chanLogger` is absent from the sources at hand. `Run` builds the
logger on the emitter and the channel of the runner
(`newChanLogger(r.emitter, r.settings.LogLevel, r.out)`), so its methods may
use both. A logger is its own state, of a type `L`, and its method `Warn` as a
parameter: from the message, the state of the logger and the emitter, the
state of the logger and the emitter after the call. -/
structure chanLogger (L : Type) where
  state : L
  Warn : GoString → L → eventEmitter → L × eventEmitter

/-- The struct `runner`, with the fields `hasUnsupportedSettings` uses; the field
`out` is the channel of the emitter. -/
structure runner where
  emitter : eventEmitter
  settings : settingsRecord

/-- Function `newRunner(settings, out)`. -/
def newRunner (settings : settingsRecord) (out : Chan) : runner :=
  { emitter := newEventEmitter settings.DisabledEvents out
    settings := settings }

/-- What `hasUnsupportedSettings` changes as it runs: the emitter, the logger
and its result `unsupported`. -/
structure Progress (L : Type) where
  emitter : eventEmitter
  logger : chanLogger L
  unsupported : Bool

/-- The closure `sadly` of `hasUnsupportedSettings`. -/
def sadly {L : Type} (why : GoString) (st : Progress L) : Progress L :=
  { st with emitter := st.emitter.EmitFailureStartup why, unsupported := true }

/-- A call `logger.Warn(msg)` inside `hasUnsupportedSettings`: the logger acts
on its own state and on the emitter it shares with the runner. -/
def warn {L : Type} (msg : GoString) (st : Progress L) : Progress L :=
  { st with
    logger := { st.logger with state := (st.logger.Warn msg st.logger.state st.emitter).1 }
    emitter := (st.logger.Warn msg st.logger.state st.emitter).2 }

/-- Method `(*runner).hasUnsupportedSettings(logger)` of `oonimkall/runner.go`: its
result, and the emitter and the logger after the call. -/
def runner.hasUnsupportedSettings {L : Type} (r : runner) (logger : chanLogger L) :
    Bool × eventEmitter × chanLogger L :=
  let st : Progress L := { emitter := r.emitter, logger := logger, unsupported := false }
  let st := if r.settings.InputFilepaths ≠ none then
    sadly "InputFilepaths: not supported".toList st else st
  let st := if r.settings.Options.Backend ≠ [] then
    sadly "Options.Backend: not supported".toList st else st
  let st := if r.settings.Options.CABundlePath ≠ [] then
    warn "Options.CABundlePath: not supported".toList st else st
  let st := if r.settings.Options.GeoIPASNPath ≠ [] then
    warn "Options.GeoIPASNPath: not supported".toList st else st
  let st := if r.settings.Options.GeoIPCountryPath ≠ [] then
    warn "Options.GeoIPCountryPath: not supported".toList st else st
  let st := if r.settings.Options.ProbeASN ≠ [] then
    warn "Options.ProbeASN: not supported".toList st else st
  let st := if r.settings.Options.ProbeCC ≠ [] then
    warn "Options.ProbeCC: not supported".toList st else st
  let st := if r.settings.Options.ProbeIP ≠ [] then
    warn "Options.ProbeIP: not supported".toList st else st
  let st := if r.settings.Options.ProbeNetworkName ≠ [] then
    warn "Options.ProbeNetworkName: not supported".toList st else st
  let st := if r.settings.Options.RandomizeInput ≠ false then
    sadly "Options.RandomizeInput: not supported".toList st else st
  let st := if r.settings.OutputFilepath ≠ [] ∧ r.settings.Options.NoFileReport = false then
    sadly "OutputFilepath && !NoFileReport: not supported".toList st else st
  (st.unsupported, st.emitter, st.logger)

/-! ## Vocabulary of the statements -/

/-- The four conditions of the claim: a settings record is unsupported when
`InputFilepaths` is non-nil, `Options.Backend` is non-empty,
`Options.RandomizeInput` is true, or `OutputFilepath` is non-empty while
`Options.NoFileReport` is false. -/
def Unsupported (s : settingsRecord) : Prop :=
  s.InputFilepaths ≠ none ∨ s.Options.Backend ≠ [] ∨ s.Options.RandomizeInput = true ∨
    (s.OutputFilepath ≠ [] ∧ s.Options.NoFileReport = false)

/-- The failures of the conditions that hold, in the order the code tests them. -/
def unsupportedReasons (s : settingsRecord) : List GoString :=
  (if s.InputFilepaths ≠ none then ["InputFilepaths: not supported".toList] else []) ++
  (if s.Options.Backend ≠ [] then ["Options.Backend: not supported".toList] else []) ++
  (if s.Options.RandomizeInput = true then
    ["Options.RandomizeInput: not supported".toList] else []) ++
  (if s.OutputFilepath ≠ [] ∧ s.Options.NoFileReport = false then
    ["OutputFilepath && !NoFileReport: not supported".toList] else [])

/-- The number of the four conditions that hold. -/
def conditionsHolding (s : settingsRecord) : Nat :=
  (if s.InputFilepaths ≠ none then 1 else 0) + (if s.Options.Backend ≠ [] then 1 else 0) +
  (if s.Options.RandomizeInput = true then 1 else 0) +
  (if s.OutputFilepath ≠ [] ∧ s.Options.NoFileReport = false then 1 else 0)

/-- None of the seven options that only lead to a warning is set. -/
def NoWarnOnly (s : settingsRecord) : Prop :=
  s.Options.CABundlePath = [] ∧ s.Options.GeoIPASNPath = [] ∧
  s.Options.GeoIPCountryPath = [] ∧ s.Options.ProbeASN = [] ∧ s.Options.ProbeCC = [] ∧
  s.Options.ProbeIP = [] ∧ s.Options.ProbeNetworkName = []

/-- The `failure.startup` event with the given failure. -/
def startupEvent (why : GoString) : eventRecord :=
  { Key := failureStartup, Value := .failureGeneric { Failure := why } }

/-- The `failure.startup` records among those delivered on the channel. -/
def startupRecords (ee : eventEmitter) : List eventRecord :=
  ee.out.sent.filter (fun x => decide (x.Key = failureStartup))

/-- The settings `s` with other values for the seven options that only lead to
a warning. -/
def withWarnOnly (s : settingsRecord)
    (caBundlePath geoIPASNPath geoIPCountryPath probeASN probeCC probeIP probeNetworkName :
      GoString) : settingsRecord :=
  { s with Options := { s.Options with
      CABundlePath := caBundlePath
      GeoIPASNPath := geoIPASNPath
      GeoIPCountryPath := geoIPCountryPath
      ProbeASN := probeASN
      ProbeCC := probeCC
      ProbeIP := probeIP
      ProbeNetworkName := probeNetworkName } }

/-- Successive calls of `EmitFailureStartup`, one per failure of the list. -/
def emitAll (ee : eventEmitter) (whys : List GoString) : eventEmitter :=
  whys.foldl (fun e why => e.EmitFailureStartup why) ee

/-- A step of `hasUnsupportedSettings`: a call of `sadly` or a call of
`logger.Warn`. -/
inductive Action where
  | failure (why : GoString)
  | warning (msg : GoString)
deriving DecidableEq, Repr

/-- The steps `hasUnsupportedSettings` takes on the settings `s`, in the order
of the code: a failure per condition that holds, a warning per warn-only
option that is set. -/
def actions (s : settingsRecord) : List Action :=
  (if s.InputFilepaths ≠ none then [.failure "InputFilepaths: not supported".toList] else []) ++
  (if s.Options.Backend ≠ [] then [.failure "Options.Backend: not supported".toList] else []) ++
  (if s.Options.CABundlePath ≠ [] then
    [.warning "Options.CABundlePath: not supported".toList] else []) ++
  (if s.Options.GeoIPASNPath ≠ [] then
    [.warning "Options.GeoIPASNPath: not supported".toList] else []) ++
  (if s.Options.GeoIPCountryPath ≠ [] then
    [.warning "Options.GeoIPCountryPath: not supported".toList] else []) ++
  (if s.Options.ProbeASN ≠ [] then [.warning "Options.ProbeASN: not supported".toList] else []) ++
  (if s.Options.ProbeCC ≠ [] then [.warning "Options.ProbeCC: not supported".toList] else []) ++
  (if s.Options.ProbeIP ≠ [] then [.warning "Options.ProbeIP: not supported".toList] else []) ++
  (if s.Options.ProbeNetworkName ≠ [] then
    [.warning "Options.ProbeNetworkName: not supported".toList] else []) ++
  (if s.Options.RandomizeInput ≠ false then
    [.failure "Options.RandomizeInput: not supported".toList] else []) ++
  (if s.OutputFilepath ≠ [] ∧ s.Options.NoFileReport = false then
    [.failure "OutputFilepath && !NoFileReport: not supported".toList] else [])

/-- One step: `sadly` for a failure, `logger.Warn` for a warning. -/
def perform {L : Type} (st : Progress L) (a : Action) : Progress L :=
  match a with
  | .failure why => sadly why st
  | .warning msg => warn msg st

/-- The failures among the steps. -/
def failuresOf (as : List Action) : List GoString :=
  as.filterMap (fun a => match a with
    | .failure why => some why
    | .warning _ => none)

/-- A logger that sends no `failure.startup` record: a call of `Warn` leaves the
map of disabled events as it is, appends to the records delivered only records
with another key, and uses up some number `k` of the coming sends. -/
def Quiet {L : Type} (Warn : GoString → L → eventEmitter → L × eventEmitter) : Prop :=
  ∀ (msg : GoString) (l : L) (ee : eventEmitter),
    (Warn msg l ee).2.disabled = ee.disabled ∧
    (∃ extra, (Warn msg l ee).2.out.sent = ee.out.sent ++ extra ∧
      ∀ x ∈ extra, x.Key ≠ failureStartup) ∧
    (∃ k, ∀ n, (Warn msg l ee).2.out.ready n = ee.out.ready (n + k))

/-! ## Samples for the examples -/

/-- A consumer that takes every record in time, on a channel without records. -/
def readyChan : Chan := { sent := [], ready := fun _ => true }

/-- A consumer that takes no record in time, on a channel without records. -/
def lateChan : Chan := { sent := [], ready := fun _ => false }

/-- A sample logger: `Warn` emits a record with the key `log` through the
emitter, and counts the warnings in its own state. -/
def sampleLogger : chanLogger Nat :=
  { state := 0
    Warn := fun _ n ee => (n + 1, ee.Emit "log".toList .eventValue) }

/-- Sample settings: nothing set but the given disabled events, `Options.Backend`
and `Options.ProbeCC`. -/
def sampleSettings (disabledEvents : List GoString) (backend probeCC : GoString) :
    settingsRecord :=
  { DisabledEvents := disabledEvents
    InputFilepaths := none
    Options :=
      { Backend := backend, CABundlePath := [], GeoIPASNPath := [], GeoIPCountryPath := [],
        NoFileReport := false, ProbeASN := [], ProbeCC := probeCC, ProbeIP := [],
        ProbeNetworkName := [], RandomizeInput := false }
    OutputFilepath := [] }

end Oonimkall

namespace Netx

/-! ## Lemmas on the string functions -/

theorem indexByteString_eq_none (s : GoString) (c : Char) :
    IndexByteString s c = none ↔ c ∉ s := by
  induction s with
  | nil => simp [IndexByteString]
  | cons x xs ih =>
    by_cases h : x = c
    · simp [IndexByteString, h]
    · have h2 : ¬ c = x := fun e => h e.symm
      simp [IndexByteString, h, h2, ih]

theorem indexByteString_isSome (s : GoString) (c : Char) :
    (IndexByteString s c).isSome = true ↔ c ∈ s := by
  rw [← not_iff_not, ← indexByteString_eq_none]
  cases IndexByteString s c <;> simp

theorem lastIndexByteString_eq_none (s : GoString) (c : Char) :
    LastIndexByteString s c = none ↔ c ∉ s := by
  induction s with
  | nil => simp [LastIndexByteString]
  | cons x xs ih =>
    by_cases hc : c ∈ xs
    · have h1 : LastIndexByteString xs c ≠ none := fun e => (ih.mp e) hc
      cases h : LastIndexByteString xs c with
      | none => exact absurd h h1
      | some i => simp [LastIndexByteString, h, hc]
    · have h1 := ih.mpr hc
      by_cases hx : x = c
      · simp [LastIndexByteString, h1, hx]
      · have h2 : ¬ c = x := fun e => hx e.symm
        simp [LastIndexByteString, h1, hx, h2, hc]

theorem lastIndexByteString_append_cons (a p : GoString) (c : Char) (hp : c ∉ p) :
    LastIndexByteString (a ++ c :: p) c = some a.length := by
  induction a with
  | nil =>
    have h1 := (lastIndexByteString_eq_none p c).mpr hp
    simp [LastIndexByteString, h1]
  | cons x xs ih => simp [LastIndexByteString, ih]

theorem hasPrefix_append (n s : GoString) : HasPrefix (n ++ s) n = true := by
  induction n with
  | nil => cases s <;> simp [HasPrefix]
  | cons x xs ih => simp [HasPrefix, ih]

theorem contains_of_hasPrefix (s n : GoString) (h : HasPrefix s n = true) :
    Contains s n = true := by
  cases s with
  | nil => simpa [Contains] using h
  | cons x xs => simp [Contains, h]

theorem contains_append_left (pre s n : GoString) (h : Contains s n = true) :
    Contains (pre ++ s) n = true := by
  induction pre with
  | nil => simpa using h
  | cons x xs ih => simp [Contains, ih]

/-- A text that ends a string occurs in it. -/
theorem contains_append_self (pre n : GoString) : Contains (pre ++ n) n = true := by
  apply contains_append_left
  apply contains_of_hasPrefix
  simpa using hasPrefix_append n []

/-- A prefix that reaches over a `:` lies before it, when the text has no `:`. -/
theorem hasPrefix_of_append_colon (n x rest : GoString) (hn : ':' ∉ n)
    (h : HasPrefix (x ++ ':' :: rest) n = true) : HasPrefix x n = true := by
  induction n generalizing x with
  | nil => cases x <;> simp [HasPrefix]
  | cons y ys ih =>
    have hy : ¬ ':' = y := fun e => hn (List.mem_cons.mpr (Or.inl e))
    have hys : ':' ∉ ys := fun e => hn (List.mem_cons.mpr (Or.inr e))
    cases x with
    | nil => simp [HasPrefix, hy] at h
    | cons z zs =>
      simp only [List.cons_append, HasPrefix, Bool.and_eq_true, decide_eq_true_eq] at h ⊢
      exact ⟨h.1, ih zs hys h.2⟩

/-- A text without `:` that occurs in `x ++ ":" ++ rest` occurs in `x` or in
`":" ++ rest`. -/
theorem contains_append_colon (n x rest : GoString) (hn : ':' ∉ n)
    (h : Contains (x ++ ':' :: rest) n = true) :
    Contains x n = true ∨ Contains (':' :: rest) n = true := by
  induction x with
  | nil => right; simpa using h
  | cons z zs ih =>
    simp only [List.cons_append, Contains, Bool.or_eq_true] at h
    rcases h with h | h
    · left
      have := hasPrefix_of_append_colon n (z :: zs) rest hn (by simpa using h)
      exact contains_of_hasPrefix _ _ this
    · rcases ih h with h1 | h1
      · left; simp [Contains, h1]
      · right; exact h1

/-! ## Lemmas on `SplitHostPort`, `JoinHostPort` and `withPort` -/

theorem splitHostPort_of_no_colon (a : GoString) (h : ':' ∉ a) :
    SplitHostPort a = addrErr a missingPort := by
  simp [SplitHostPort, (lastIndexByteString_eq_none a ':').mpr h]

theorem joinHostPort_of_no_colon (a p : GoString) (h : ':' ∉ a) :
    JoinHostPort a p = a ++ ':' :: p := by
  simp [JoinHostPort, (indexByteString_eq_none a ':').mpr h]

/-- The text of a missing-port error contains "missing port in address". -/
theorem contains_missingPort_error (a : GoString) :
    Contains (AddrError.Error { Err := missingPort, Addr := a })
      "missing port in address".toList = true := by
  unfold AddrError.Error
  split
  · exact contains_append_self _ _
  · exact contains_append_self [] _

/-- No port is injected into an address that parses. -/
theorem withPort_of_ok (a p : GoString) (hp : GoString × GoString)
    (h : SplitHostPort a = .ok hp) : withPort a p = a := by
  unfold withPort
  rw [h]

/-- An address without a colon gets `:` and the port appended. -/
theorem withPort_of_no_colon (a p : GoString) (h : ':' ∉ a) :
    withPort a p = a ++ ':' :: p := by
  unfold withPort
  rw [splitHostPort_of_no_colon a h]
  simp only [addrErr]
  rw [contains_missingPort_error a]
  simpa using joinHostPort_of_no_colon a p h

/-- A plain host joined with a plain port parses, into that host and that port. -/
theorem splitHostPort_join_plain (a p : GoString) (ha : Plain a) (hp : Plain p) :
    SplitHostPort (a ++ ':' :: p) = .ok (a, p) := by
  obtain ⟨ha1, ha2, ha3⟩ := ha
  obtain ⟨hp1, hp2, hp3⟩ := hp
  have hhead : ¬ (a ++ ':' :: p).head? = some '[' := by
    cases a with
    | nil => simp
    | cons x xs =>
      intro e
      apply ha2
      simp only [List.cons_append, List.head?_cons, Option.some.injEq] at e
      simp [e]
  have hl : '[' ∉ a ++ ':' :: p := by simp [ha2, hp2]
  have hr : ']' ∉ a ++ ':' :: p := by simp [ha3, hp3]
  unfold SplitHostPort
  rw [lastIndexByteString_append_cons a p ':' hp1]
  simp only [hhead, if_false]
  rw [List.take_left, (indexByteString_eq_none a ':').mpr ha1]
  simp [splitTail, (indexByteString_eq_none _ _).mpr hl, (indexByteString_eq_none _ _).mpr hr]

/-- An error of the tail of `SplitHostPort` names the address and reports an
unexpected bracket. -/
theorem splitTail_error (a host : GoString) (i j k : Nat) (e : AddrError)
    (h : splitTail a host i j k = .error e) :
    e.Addr = a ∧ (e.Err = "unexpected '[' in address".toList ∨
      e.Err = "unexpected ']' in address".toList) := by
  unfold splitTail at h
  split at h
  · simp only [addrErr, Except.error.injEq] at h
    subst h
    exact ⟨rfl, Or.inl rfl⟩
  · split at h
    · simp only [addrErr, Except.error.injEq] at h
      subst h
      exact ⟨rfl, Or.inr rfl⟩
    · exact Except.noConfusion h

/-- An error of `SplitHostPort` names the address it was given and has one of
five reasons. -/
theorem splitHostPort_error (a : GoString) (e : AddrError)
    (h : SplitHostPort a = .error e) :
    e.Addr = a ∧ (e.Err = missingPort ∨ e.Err = tooManyColons ∨
      e.Err = "missing ']' in address".toList ∨
      e.Err = "unexpected '[' in address".toList ∨
      e.Err = "unexpected ']' in address".toList) := by
  have tail : ∀ host i j k, splitTail a host i j k = .error e →
      e.Addr = a ∧ (e.Err = missingPort ∨ e.Err = tooManyColons ∨
      e.Err = "missing ']' in address".toList ∨
      e.Err = "unexpected '[' in address".toList ∨
      e.Err = "unexpected ']' in address".toList) := by
    intro host i j k ht
    obtain ⟨h1, h2⟩ := splitTail_error a host i j k e ht
    rcases h2 with h2 | h2
    · exact ⟨h1, Or.inr (Or.inr (Or.inr (Or.inl h2)))⟩
    · exact ⟨h1, Or.inr (Or.inr (Or.inr (Or.inr h2)))⟩
  have miss : addrErr a missingPort = .error e →
      e.Addr = a ∧ (e.Err = missingPort ∨ e.Err = tooManyColons ∨
      e.Err = "missing ']' in address".toList ∨
      e.Err = "unexpected '[' in address".toList ∨
      e.Err = "unexpected ']' in address".toList) := by
    intro hm
    simp only [addrErr, Except.error.injEq] at hm
    subst hm
    exact ⟨rfl, Or.inl rfl⟩
  have many : addrErr a tooManyColons = .error e →
      e.Addr = a ∧ (e.Err = missingPort ∨ e.Err = tooManyColons ∨
      e.Err = "missing ']' in address".toList ∨
      e.Err = "unexpected '[' in address".toList ∨
      e.Err = "unexpected ']' in address".toList) := by
    intro hm
    simp only [addrErr, Except.error.injEq] at hm
    subst hm
    exact ⟨rfl, Or.inr (Or.inl rfl)⟩
  unfold SplitHostPort at h
  split at h
  · exact miss h
  · split at h
    · split at h
      · simp only [addrErr, Except.error.injEq] at h
        subst h
        exact ⟨rfl, Or.inr (Or.inr (Or.inl rfl))⟩
      · split at h
        · exact miss h
        · split at h
          · exact tail _ _ _ _ h
          · split at h
            · exact many h
            · exact miss h
    · simp only at h
      split at h
      · exact many h
      · exact tail _ _ _ _ h

/-- An address whose parse fails for another reason than a missing port, and
which does not itself contain the text "missing port in address", is returned
unchanged. -/
theorem withPort_of_other_error (a p : GoString) (e : AddrError)
    (h : SplitHostPort a = .error e) (hne : e.Err ≠ missingPort)
    (hc : Contains a "missing port in address".toList = false) :
    withPort a p = a := by
  obtain ⟨hAddr, hErr⟩ := splitHostPort_error a e h
  have hnil : a ≠ [] := by
    intro ha
    subst ha
    have h0 : SplitHostPort [] = addrErr [] missingPort := rfl
    rw [h0] at h
    simp only [addrErr, Except.error.injEq] at h
    exact hne (by rw [← h])
  have hcol : ':' ∉ "missing port in address".toList := by decide
  have key : Contains e.Error "missing port in address".toList = false := by
    rw [Bool.eq_false_iff]
    intro hcon
    have hE : e.Error = "address ".toList ++ (a ++ ':' :: ' ' :: e.Err) := by
      simp [AddrError.Error, hAddr, hnil]
    rw [hE] at hcon
    have h2 : Contains (a ++ ':' :: ' ' :: e.Err) "missing port in address".toList = true := by
      simpa [Contains, HasPrefix] using hcon
    rcases contains_append_colon _ a _ hcol h2 with h3 | h3
    · rw [hc] at h3; exact Bool.noConfusion h3
    · rcases hErr with h4 | h4 | h4 | h4 | h4
      · exact hne h4
      all_goals (rw [h4] at h3; revert h3; decide)
  unfold withPort
  rw [h]
  simp only [key, Bool.false_eq_true, if_false]

/-- Normalising twice is normalising once for a plain address and a plain port,
and for an address that already parses. -/
theorem withPort_idempotent_of_plain (a p : GoString)
    (h : (∃ hp, SplitHostPort a = .ok hp) ∨ (Plain a ∧ Plain p)) :
    withPort (withPort a p) p = withPort a p := by
  rcases h with ⟨hp, h⟩ | ⟨ha, hp⟩
  · rw [withPort_of_ok a p hp h, withPort_of_ok a p hp h]
  · apply withPort_of_ok _ _ (a, p)
    rw [withPort_of_no_colon a p ha.1]
    exact splitHostPort_join_plain a p ha hp

/-! ## The resolver factory -/

/-- C1: for every address and every state, `newResolver` (hence `NewResolver`)
returns a non-nil resolver and a nil error when the transport name is one of
"", "system", "udp", "tcp", "dot", "doh", and a nil resolver with a non-nil
error for every other transport name. -/
theorem newResolver_supported {Ctx σ : Type} (D : Deps Ctx σ) (now₀ now₁ now₂ beginning : Time)
    (handler : Handler) (network address : GoString) (s : Process) :
    (network ∈ supportedNetworks →
      ((newResolver D now₁ now₂ beginning handler network address s).1.1.isSome = true ∧
       (newResolver D now₁ now₂ beginning handler network address s).1.2 = none) ∧
      ((NewResolver D now₀ now₁ now₂ network address s).1.1.isSome = true ∧
       (NewResolver D now₀ now₁ now₂ network address s).1.2 = none)) ∧
    (network ∉ supportedNetworks →
      ((newResolver D now₁ now₂ beginning handler network address s).1.1.isNone = true ∧
       (newResolver D now₁ now₂ beginning handler network address s).1.2.isSome = true) ∧
      ((NewResolver D now₀ now₁ now₂ network address s).1.1.isNone = true ∧
       (NewResolver D now₀ now₁ now₂ network address s).1.2.isSome = true)) := by
  have ok : ∀ (b : Time) (h : Handler), network ∈ supportedNetworks →
      (newResolver D now₁ now₂ b h network address s).1.1.isSome = true ∧
      (newResolver D now₁ now₂ b h network address s).1.2 = none := by
    intro b h hn
    simp only [supportedNetworks, List.mem_cons, List.mem_singleton, List.not_mem_nil,
      or_false] at hn
    unfold newResolver
    rcases hn with rfl | rfl | rfl | rfl | rfl | rfl <;> simp
  have bad : ∀ (b : Time) (h : Handler), network ∉ supportedNetworks →
      (newResolver D now₁ now₂ b h network address s).1.1.isNone = true ∧
      (newResolver D now₁ now₂ b h network address s).1.2.isSome = true := by
    intro b h hn
    simp only [supportedNetworks, List.mem_cons, List.mem_singleton, List.not_mem_nil,
      or_false, not_or] at hn
    obtain ⟨h1, h2, h3, h4, h5, h6⟩ := hn
    unfold newResolver
    rw [if_neg (not_or.mpr ⟨h2, h1⟩), if_neg h6, if_neg h5, if_neg h4, if_neg h3]
    exact ⟨rfl, rfl⟩
  exact ⟨fun hn => ⟨ok beginning handler hn, ok now₀ Handler.NoHandler hn⟩,
    fun hn => ⟨bad beginning handler hn, bad now₀ Handler.NoHandler hn⟩⟩

/-- C1 at the transport names "udp" and "antani" of the tests. -/
theorem newResolver_supported_witness :
    ("udp".toList ∈ supportedNetworks ∧
      (newResolver sampleDeps 0 0 0 Handler.NoHandler "udp".toList "1.1.1.1:53".toList
        Process.start).1.1.isSome = true) ∧
    ("antani".toList ∉ supportedNetworks ∧
      (NewResolver sampleDeps 0 0 0 "antani".toList
        "https://cloudflare-dns.com/dns-query".toList Process.start).1.1.isNone = true) :=
  ⟨⟨by decide,
    ((newResolver_supported sampleDeps 0 0 0 0 Handler.NoHandler "udp".toList
      "1.1.1.1:53".toList Process.start).1 (by decide)).1.1⟩,
   ⟨by decide,
    ((newResolver_supported sampleDeps 0 0 0 0 Handler.NoHandler "antani".toList
      "https://cloudflare-dns.com/dns-query".toList Process.start).2 (by decide)).2.1⟩⟩

/-! ## The chain resolver -/

theorem chainLookup_fallsBack {Ctx σ α : Type} (primary secondary : Lookup Ctx σ α) :
    FallsBack primary secondary (chainLookup primary secondary) := by
  intro ctx input w
  unfold chainLookup
  cases h : (primary ctx input w).1.2 with
  | none => simp [h]
  | some e => simp [h]

/-- C2: for each of the five lookup methods, the resolver `ChainResolvers primary
secondary` returns the result of `primary` when `primary` succeeds, and exactly
the result of `secondary` (for the same context and input) when `primary`
fails; it fails only if both fail, with the failure of `secondary`. -/
theorem chainResolvers_fallsBack {Ctx σ : Type} (primary secondary : DNSResolver Ctx σ) :
    FallsBack primary.LookupHost secondary.LookupHost
      (ChainResolvers primary secondary).LookupHost ∧
    FallsBack primary.LookupAddr secondary.LookupAddr
      (ChainResolvers primary secondary).LookupAddr ∧
    FallsBack primary.LookupCNAME secondary.LookupCNAME
      (ChainResolvers primary secondary).LookupCNAME ∧
    FallsBack primary.LookupMX secondary.LookupMX
      (ChainResolvers primary secondary).LookupMX ∧
    FallsBack primary.LookupNS secondary.LookupNS
      (ChainResolvers primary secondary).LookupNS :=
  ⟨chainLookup_fallsBack _ _, chainLookup_fallsBack _ _, chainLookup_fallsBack _ _,
    chainLookup_fallsBack _ _, chainLookup_fallsBack _ _⟩

/-- C2 with a broken primary and a working secondary, as in the test: the chain
answers with the records of the secondary, the primary was called once, and
with a working primary the chain answers with the primary. -/
theorem chainResolvers_fallsBack_witness :
    ((brokenResolver.LookupHost () "www.google.com".toList 0).1.2 ≠ none ∧
      (ChainResolvers brokenResolver fixedResolver).LookupHost () "www.google.com".toList 0 =
        ((["8.8.8.8".toList], none), 1)) ∧
    ((fixedResolver.LookupHost () "www.google.com".toList 0).1.2 = none ∧
      (ChainResolvers fixedResolver brokenResolver).LookupHost () "www.google.com".toList 0 =
        ((["8.8.8.8".toList], none), 0)) :=
  ⟨⟨by decide,
    ((chainResolvers_fallsBack brokenResolver fixedResolver).1 ()
      "www.google.com".toList 0).2.1 (by decide)⟩,
   ⟨by decide,
    ((chainResolvers_fallsBack fixedResolver brokenResolver).1 ()
      "www.google.com".toList 0).1 (by decide)⟩⟩

/-! ## Address normalisation -/

/-- C3, at the address `[::1]`: its parse fails because the port is missing, and
`withPort` returns `[[::1]]:853`, which is not the address with `:853`
appended. -/
theorem withPort_bracketed_no_port :
    SplitHostPort "[::1]".toList = addrErr "[::1]".toList missingPort ∧
    withPort "[::1]".toList "853".toList = "[[::1]]:853".toList ∧
    withPort "[::1]".toList "853".toList ≠ "[::1]".toList ++ ":".toList ++ "853".toList :=
  ⟨rfl, by decide, by decide⟩

/-- C4: an address that parses as host:port is returned unchanged, whatever
the default port. -/
theorem withPort_of_parses (address port : GoString) (hp : GoString × GoString)
    (h : SplitHostPort address = .ok hp) : withPort address port = address :=
  withPort_of_ok address port hp h

/-- C4 at the address `host:1234` with the default port `9999`. -/
theorem withPort_of_parses_witness :
    SplitHostPort "host:1234".toList = .ok ("host".toList, "1234".toList) ∧
    withPort "host:1234".toList "9999".toList = "host:1234".toList :=
  ⟨rfl, withPort_of_parses "host:1234".toList "9999".toList _ rfl⟩

/-- C5, at the address `[::1]`: a second normalisation changes the address
again. The first result `[[::1]]:853` fails to parse for a missing port, and
becomes `[[[::1]]:853]:853`. -/
theorem withPort_twice_bracketed_no_port :
    withPort "[::1]".toList "853".toList = "[[::1]]:853".toList ∧
    SplitHostPort "[[::1]]:853".toList = addrErr "[[::1]]:853".toList missingPort ∧
    withPort (withPort "[::1]".toList "853".toList) "853".toList =
      "[[[::1]]:853]:853".toList ∧
    withPort (withPort "[::1]".toList "853".toList) "853".toList ≠
      withPort "[::1]".toList "853".toList :=
  ⟨by decide, rfl, by decide, by decide⟩

/-- C6, at the address `missing port in address:1:2`: its parse fails because
of too many colons, and `withPort` injects the port all the same. -/
theorem withPort_text_in_address :
    SplitHostPort "missing port in address:1:2".toList =
      addrErr "missing port in address:1:2".toList tooManyColons ∧
    withPort "missing port in address:1:2".toList "53".toList =
      "[missing port in address:1:2]:53".toList ∧
    withPort "missing port in address:1:2".toList "53".toList ≠
      "missing port in address:1:2".toList :=
  ⟨rfl, by decide, by decide⟩

/-- C7 as stated fails at the bare IPv6 address `::1`: it is returned as it is,
and does not parse as host:port. -/
theorem withPort_bare_ipv6_no_port :
    withPort "::1".toList "53".toList = "::1".toList ∧
    SplitHostPort (withPort "::1".toList "53".toList) = addrErr "::1".toList tooManyColons ∧
    ¬ ∃ hp, SplitHostPort (withPort "::1".toList "53".toList) = .ok hp := by
  refine ⟨by decide, rfl, ?_⟩
  rintro ⟨hp, h⟩
  have h2 : SplitHostPort (withPort "::1".toList "53".toList) =
      addrErr "::1".toList tooManyColons := rfl
  rw [h2] at h
  exact Except.noConfusion h

/-- C7, amended: an address that parses as host:port still parses after
normalisation, to the same host and port; an address and a default port
without `:`, `[` and `]` (a domain name or an IPv4 address; the ports 53 and
853) normalise to an address that parses, into that address as host and that
port; an address whose parse fails for another reason than a missing port, and
which does not contain the text "missing port in address", is handed on as it
is and still fails to parse. -/
theorem withPort_parses (a p : GoString) :
    (∀ hp, SplitHostPort a = .ok hp → SplitHostPort (withPort a p) = .ok hp) ∧
    (Plain a → Plain p → SplitHostPort (withPort a p) = .ok (a, p)) ∧
    (∀ e, SplitHostPort a = .error e → e.Err ≠ missingPort →
      Contains a "missing port in address".toList = false →
      SplitHostPort (withPort a p) = .error e) := by
  refine ⟨?_, ?_, ?_⟩
  · intro hp h
    rw [withPort_of_ok a p hp h, h]
  · intro ha hp
    rw [withPort_of_no_colon a p ha.1]
    exact splitHostPort_join_plain a p ha hp
  · intro e h hne hc
    rw [withPort_of_other_error a p e h hne hc, h]

/-- C7, amended, at the addresses `9.9.9.9` (port 853), `dns.google.com` (port
53), `8.8.8.8:53` and `::1`. -/
theorem withPort_parses_witness :
    (Plain "9.9.9.9".toList ∧ Plain "853".toList ∧
      SplitHostPort (withPort "9.9.9.9".toList "853".toList) =
        .ok ("9.9.9.9".toList, "853".toList)) ∧
    (Plain "dns.google.com".toList ∧ Plain "53".toList ∧
      SplitHostPort (withPort "dns.google.com".toList "53".toList) =
        .ok ("dns.google.com".toList, "53".toList)) ∧
    SplitHostPort (withPort "8.8.8.8:53".toList "53".toList) =
      .ok ("8.8.8.8".toList, "53".toList) ∧
    SplitHostPort (withPort "::1".toList "53".toList) =
      .error { Err := tooManyColons, Addr := "::1".toList } :=
  ⟨⟨by decide, by decide,
    (withPort_parses "9.9.9.9".toList "853".toList).2.1 (by decide) (by decide)⟩,
   ⟨by decide, by decide,
    (withPort_parses "dns.google.com".toList "53".toList).2.1 (by decide) (by decide)⟩,
   (withPort_parses "8.8.8.8:53".toList "53".toList).1 _ rfl,
   (withPort_parses "::1".toList "53".toList).2.2 _ rfl (by decide) (by decide)⟩

/-! ## The factory and the wrapper -/

/-- C8: the address `newResolver` hands to the backend is `withPort address "853"`
for "dot", `withPort address "53"` for "tcp" and for "udp", and the address as
it is for "doh". -/
theorem newResolver_backend_address {Ctx σ : Type} (D : Deps Ctx σ) (now₁ now₂ beginning : Time)
    (handler : Handler) (address : GoString) (s : Process) :
    (newResolver D now₁ now₂ beginning handler "dot".toList address s).1 =
      (some ((newResolverWrapper beginning handler (D.NewResolverTLS
        (newDialer beginning handler) (withPort address "853".toList))).asDNSResolver D),
       none) ∧
    (newResolver D now₁ now₂ beginning handler "tcp".toList address s).1 =
      (some ((newResolverWrapper beginning handler (D.NewResolverTCP
        (newDialer beginning handler) (withPort address "53".toList))).asDNSResolver D),
       none) ∧
    (newResolver D now₁ now₂ beginning handler "udp".toList address s).1 =
      (some ((newResolverWrapper beginning handler (D.NewResolverUDP
        (newDialer beginning handler) (withPort address "53".toList))).asDNSResolver D),
       none) ∧
    (newResolver D now₁ now₂ beginning handler "doh".toList address s).1 =
      (some ((newResolverWrapper beginning handler (D.NewResolverHTTPS
        (newHTTPClientForDoH now₁ now₂ beginning handler s).1 address)).asDNSResolver D),
       none) := by
  refine ⟨?_, ?_, ?_, ?_⟩ <;> simp [newResolver]

/-- C9: each of the five lookup methods of a `resolverWrapper` returns exactly
the value, the error and the world that the same method of the wrapped resolver
returns for the same argument under the context `maybeWithMeasurementRoot ctx
beginning handler`. The wrapped resolver `r` is any resolver: a backend, another
wrapper or a chain. -/
theorem resolverWrapper_returns_unchanged {Ctx σ : Type} (D : Deps Ctx σ) (beginning : Time)
    (handler : Handler) (r : DNSResolver Ctx σ) (ctx : Ctx) (arg : GoString) (w : σ) :
    ((newResolverWrapper beginning handler r).asDNSResolver D).LookupHost ctx arg w =
      r.LookupHost (D.maybeWithMeasurementRoot ctx beginning handler) arg w ∧
    ((newResolverWrapper beginning handler r).asDNSResolver D).LookupAddr ctx arg w =
      r.LookupAddr (D.maybeWithMeasurementRoot ctx beginning handler) arg w ∧
    ((newResolverWrapper beginning handler r).asDNSResolver D).LookupCNAME ctx arg w =
      r.LookupCNAME (D.maybeWithMeasurementRoot ctx beginning handler) arg w ∧
    ((newResolverWrapper beginning handler r).asDNSResolver D).LookupMX ctx arg w =
      r.LookupMX (D.maybeWithMeasurementRoot ctx beginning handler) arg w ∧
    ((newResolverWrapper beginning handler r).asDNSResolver D).LookupNS ctx arg w =
      r.LookupNS (D.maybeWithMeasurementRoot ctx beginning handler) arg w :=
  ⟨rfl, rfl, rfl, rfl, rfl⟩

/-! ## The client for DNS-over-HTTPS -/

theorem newHTTPClientForDoH_instrumented (now₁ now₂ beginning : Time) (handler : Handler)
    (s : Process) (h : handler ≠ Handler.NoHandler) :
    newHTTPClientForDoH now₁ now₂ beginning handler s =
      (some s.clients.length,
        { s with clients := s.clients ++
            [⟨newHTTPTransport beginning handler (newDialer beginning handler) true⟩] }) := by
  simp [newHTTPClientForDoH, h, Process.alloc]

theorem newHTTPClientForDoH_reuse (now₁ now₂ beginning : Time) (s : Process)
    (h : s.dohClientOnce = true) :
    newHTTPClientForDoH now₁ now₂ beginning Handler.NoHandler s = (s.dohClientHandle, s) := by
  simp [newHTTPClientForDoH, h]

theorem newHTTPClientForDoH_first (now₁ now₂ beginning : Time) (s : Process)
    (h : s.dohClientOnce = false) :
    newHTTPClientForDoH now₁ now₂ beginning Handler.NoHandler s =
      (some s.clients.length,
        { clients := s.clients ++
            [⟨newHTTPTransport now₁ Handler.NoHandler (newDialer now₂ Handler.NoHandler) false⟩],
          dohClientHandle := some s.clients.length,
          dohClientOnce := true }) := by
  simp [newHTTPClientForDoH, h, Process.alloc]

theorem instrumentedCalls_cons_plain (c : DoHCall) (cs : List DoHCall)
    (hc : c.handler = Handler.NoHandler) :
    instrumentedCalls (c :: cs) = instrumentedCalls cs := by
  simp [instrumentedCalls, hc]

theorem instrumentedCalls_cons_own (c : DoHCall) (cs : List DoHCall)
    (hc : c.handler ≠ Handler.NoHandler) :
    instrumentedCalls (c :: cs) = c :: instrumentedCalls cs := by
  simp [instrumentedCalls, hc]

theorem hasPlainCall_cons_plain (c : DoHCall) (cs : List DoHCall)
    (hc : c.handler = Handler.NoHandler) : hasPlainCall (c :: cs) = true := by
  simp [hasPlainCall, hc]

theorem hasPlainCall_cons_own (c : DoHCall) (cs : List DoHCall)
    (hc : c.handler ≠ Handler.NoHandler) : hasPlainCall (c :: cs) = hasPlainCall cs := by
  simp [hasPlainCall, hc]

theorem runFacts_nil (s : Process) (hs : s.WellFormed) : RunFacts [] s [] s where
  wellFormed := hs
  allocated := by simp [instrumentedCalls, hasPlainCall]
  kept := fun h => ⟨rfl, h⟩
  fresh := by
    intro h a ha
    rw [hs.2 h] at ha
    exact Option.noConfusion ha
  shared := by intro i c h; simp at h
  own := by intro i c h; simp at h
  apart := by intro i j ci cj _ h; simp at h

/-- A call with `NoHandler` after `dohClientOnce.Do` has run: the state stays,
and the call returns `dohClientHandle`. -/
theorem runFacts_cons_reuse (c : DoHCall) (cs : List DoHCall) (s t : Process)
    (rs : List ClientPtr) (hc : c.handler = Handler.NoHandler)
    (ho : s.dohClientOnce = true) (F : RunFacts cs s rs t) :
    RunFacts (c :: cs) s (s.dohClientHandle :: rs) t where
  wellFormed := F.wellFormed
  allocated := by
    rw [instrumentedCalls_cons_plain c cs hc, F.allocated]
    simp [ho]
  kept := F.kept
  fresh := by
    intro h
    rw [ho] at h
    exact Bool.noConfusion h
  shared := by
    intro i c1 h1 h2
    cases i with
    | zero => exact ⟨by simp [(F.kept ho).1], (F.kept ho).2⟩
    | succ k =>
      simp only [List.getElem?_cons_succ] at h1 ⊢
      exact F.shared k c1 h1 h2
  own := by
    intro i c1 h1 h2
    cases i with
    | zero =>
      simp only [List.getElem?_cons_zero, Option.some.injEq] at h1
      subst h1
      exact absurd hc h2
    | succ k =>
      simp only [List.getElem?_cons_succ] at h1 ⊢
      exact F.own k c1 h1 h2
  apart := by
    intro i j ci cj hij h1 h2 h3 h4
    cases i with
    | zero =>
      simp only [List.getElem?_cons_zero, Option.some.injEq] at h1
      subst h1
      exact absurd hc h3
    | succ k =>
      cases j with
      | zero => exact absurd hij (Nat.not_lt_zero _)
      | succ l =>
        simp only [List.getElem?_cons_succ] at h1 h2 ⊢
        exact F.apart k l ci cj (Nat.lt_of_succ_lt_succ hij) h1 h2 h3 h4

/-- The first call with `NoHandler`: the client is allocated at a fresh address,
which `dohClientHandle` keeps from then on. -/
theorem runFacts_cons_first (c : DoHCall) (cs : List DoHCall) (s s1 t : Process)
    (rs : List ClientPtr) (hc : c.handler = Handler.NoHandler)
    (ho : s.dohClientOnce = false) (F : RunFacts cs s1 rs t)
    (h1c : s1.clients.length = s.clients.length + 1)
    (h1h : s1.dohClientHandle = some s.clients.length)
    (h1o : s1.dohClientOnce = true) :
    RunFacts (c :: cs) s (some s.clients.length :: rs) t where
  wellFormed := F.wellFormed
  allocated := by
    rw [instrumentedCalls_cons_plain c cs hc, F.allocated, h1c]
    simp [ho, h1o, hasPlainCall_cons_plain c cs hc]
    omega
  kept := by
    intro h
    rw [ho] at h
    exact Bool.noConfusion h
  fresh := by
    intro _ a ha
    rw [(F.kept h1o).1, h1h] at ha
    simp only [Option.some.injEq] at ha
    omega
  shared := by
    intro i c1 h1 h2
    cases i with
    | zero => exact ⟨by simp [(F.kept h1o).1, h1h], (F.kept h1o).2⟩
    | succ k =>
      simp only [List.getElem?_cons_succ] at h1 ⊢
      exact F.shared k c1 h1 h2
  own := by
    intro i c1 h1 h2
    cases i with
    | zero =>
      simp only [List.getElem?_cons_zero, Option.some.injEq] at h1
      subst h1
      exact absurd hc h2
    | succ k =>
      simp only [List.getElem?_cons_succ] at h1 ⊢
      obtain ⟨a, e1, e2, e3, e4⟩ := F.own k c1 h1 h2
      exact ⟨a, e1, by omega, e3, e4⟩
  apart := by
    intro i j ci cj hij h1 h2 h3 h4
    cases i with
    | zero =>
      simp only [List.getElem?_cons_zero, Option.some.injEq] at h1
      subst h1
      exact absurd hc h3
    | succ k =>
      cases j with
      | zero => exact absurd hij (Nat.not_lt_zero _)
      | succ l =>
        simp only [List.getElem?_cons_succ] at h1 h2 ⊢
        exact F.apart k l ci cj (Nat.lt_of_succ_lt_succ hij) h1 h2 h3 h4

/-- A call with another handler than `NoHandler`: the client is allocated at a
fresh address, and the package variables stay. -/
theorem runFacts_cons_own (c : DoHCall) (cs : List DoHCall) (s s1 t : Process)
    (rs : List ClientPtr) (hc : c.handler ≠ Handler.NoHandler) (hs : s.WellFormed)
    (F : RunFacts cs s1 rs t)
    (h1c : s1.clients.length = s.clients.length + 1)
    (h1h : s1.dohClientHandle = s.dohClientHandle)
    (h1o : s1.dohClientOnce = s.dohClientOnce) :
    RunFacts (c :: cs) s (some s.clients.length :: rs) t where
  wellFormed := F.wellFormed
  allocated := by
    rw [instrumentedCalls_cons_own c cs hc, F.allocated, h1c, h1o,
      hasPlainCall_cons_own c cs hc]
    simp only [List.length_cons]
    omega
  kept := by
    intro h
    have := F.kept (h1o.trans h)
    exact ⟨this.1.trans h1h, this.2⟩
  fresh := by
    intro h a ha
    have := F.fresh (h1o.trans h) a ha
    omega
  shared := by
    intro i c1 h1 h2
    cases i with
    | zero =>
      simp only [List.getElem?_cons_zero, Option.some.injEq] at h1
      subst h1
      exact absurd h2 hc
    | succ k =>
      simp only [List.getElem?_cons_succ] at h1 ⊢
      exact F.shared k c1 h1 h2
  own := by
    intro i c1 h1 h2
    cases i with
    | zero =>
      refine ⟨s.clients.length, by simp, Nat.le_refl _, ?_, ?_⟩
      · have := F.allocated
        omega
      · intro e
        cases ho : s.dohClientOnce with
        | true =>
          obtain ⟨a, ha1, ha2⟩ := hs.1 ho
          have h3 := (F.kept (h1o.trans ho)).1
          rw [h1h, ha1, e] at h3
          simp only [Option.some.injEq] at h3
          omega
        | false =>
          have := F.fresh (h1o.trans ho) _ e
          omega
    | succ k =>
      simp only [List.getElem?_cons_succ] at h1 ⊢
      obtain ⟨a, e1, e2, e3, e4⟩ := F.own k c1 h1 h2
      exact ⟨a, e1, by omega, e3, e4⟩
  apart := by
    intro i j ci cj hij h1 h2 h3 h4
    cases j with
    | zero => exact absurd hij (Nat.not_lt_zero _)
    | succ l =>
      cases i with
      | zero =>
        simp only [List.getElem?_cons_succ] at h2
        obtain ⟨a, e1, e2, _, _⟩ := F.own l cj h2 h4
        simp only [List.getElem?_cons_zero, List.getElem?_cons_succ, e1, ne_eq,
          Option.some.injEq]
        omega
      | succ k =>
        simp only [List.getElem?_cons_succ] at h1 h2 ⊢
        exact F.apart k l ci cj (Nat.lt_of_succ_lt_succ hij) h1 h2 h3 h4

/-- The facts hold of every run from a well-formed state. -/
theorem runDoHCalls_facts (cs : List DoHCall) (s : Process) (hs : s.WellFormed) :
    RunFacts cs s (runDoHCalls cs s).1 (runDoHCalls cs s).2 := by
  induction cs generalizing s with
  | nil => exact runFacts_nil s hs
  | cons c cs ih =>
    by_cases hc : c.handler = Handler.NoHandler
    · cases ho : s.dohClientOnce with
      | true =>
        have e := newHTTPClientForDoH_reuse c.now₁ c.now₂ c.beginning s ho
        have F := ih s hs
        have := runFacts_cons_reuse c cs s _ _ hc ho F
        simpa [runDoHCalls, hc, e] using this
      | false =>
        have e := newHTTPClientForDoH_first c.now₁ c.now₂ c.beginning s ho
        have F := ih _ (show Process.WellFormed
          { clients := s.clients ++
              [⟨newHTTPTransport c.now₁ Handler.NoHandler
                (newDialer c.now₂ Handler.NoHandler) false⟩],
            dohClientHandle := some s.clients.length,
            dohClientOnce := true } from ⟨fun _ => ⟨_, rfl, by simp⟩,
              fun h => Bool.noConfusion h⟩)
        have := runFacts_cons_first c cs s _ _ _ hc ho F (by simp) rfl rfl
        simpa [runDoHCalls, hc, e] using this
    · have e := newHTTPClientForDoH_instrumented c.now₁ c.now₂ c.beginning c.handler s hc
      have F := ih _ (show Process.WellFormed
        { s with clients := s.clients ++
            [⟨newHTTPTransport c.beginning c.handler
              (newDialer c.beginning c.handler) true⟩] } from
          ⟨fun h => by
              obtain ⟨a, h1, h2⟩ := hs.1 h
              exact ⟨a, h1, by simp; omega⟩,
            fun h => hs.2 h⟩)
      have := runFacts_cons_own c cs s _ _ _ hc hs F (by simp) rfl rfl
      simpa [runDoHCalls, e] using this

theorem wellFormed_start : Process.start.WellFormed :=
  ⟨fun h => Bool.noConfusion h, fun _ => rfl⟩

/-- C10: in every sequence of calls of `newHTTPClientForDoH` from process start,
(1) any two calls with `NoHandler` return the identical client, an allocated
one, to which `dohClientHandle` points; (2) the clients allocated are one per
call with another handler, and one more if some call passed `NoHandler`: the
singleton is created at most once; (3) a call with another handler returns a
client that differs from the singleton and from the client of every other call;
(4) in every state, a call with another handler allocates a fresh client and
leaves `dohClientHandle` and `dohClientOnce` as they are, and a call with
`NoHandler` after the singleton was created leaves the whole state as it is. -/
theorem newHTTPClientForDoH_lifecycle (cs : List DoHCall) :
    (∀ (i j : Nat) (ci cj : DoHCall), cs[i]? = some ci → cs[j]? = some cj →
      ci.handler = Handler.NoHandler → cj.handler = Handler.NoHandler →
      (runDoHCalls cs Process.start).1[i]? = (runDoHCalls cs Process.start).1[j]? ∧
      ∃ a, (runDoHCalls cs Process.start).1[i]? = some (some a) ∧
        (runDoHCalls cs Process.start).2.dohClientHandle = some a ∧
        a < (runDoHCalls cs Process.start).2.clients.length) ∧
    ((runDoHCalls cs Process.start).2.clients.length =
      (instrumentedCalls cs).length + (if hasPlainCall cs = true then 1 else 0)) ∧
    (∀ (i j : Nat) (ci cj : DoHCall), cs[i]? = some ci → cs[j]? = some cj → i ≠ j →
      ci.handler ≠ Handler.NoHandler →
      (runDoHCalls cs Process.start).1[i]? ≠ (runDoHCalls cs Process.start).1[j]? ∧
      ∃ a, (runDoHCalls cs Process.start).1[i]? = some (some a) ∧
        (runDoHCalls cs Process.start).2.dohClientHandle ≠ some a) ∧
    (∀ (s : Process) (now₁ now₂ beginning : Time) (handler : Handler),
      (handler ≠ Handler.NoHandler →
        (newHTTPClientForDoH now₁ now₂ beginning handler s).1 = some s.clients.length ∧
        (newHTTPClientForDoH now₁ now₂ beginning handler s).2.dohClientHandle =
          s.dohClientHandle ∧
        (newHTTPClientForDoH now₁ now₂ beginning handler s).2.dohClientOnce =
          s.dohClientOnce) ∧
      (s.dohClientOnce = true →
        newHTTPClientForDoH now₁ now₂ beginning Handler.NoHandler s =
          (s.dohClientHandle, s))) := by
  have F := runDoHCalls_facts cs Process.start wellFormed_start
  refine ⟨?_, ?_, ?_, ?_⟩
  · intro i j ci cj hi hj hci hcj
    obtain ⟨e1, e2⟩ := F.shared i ci hi hci
    obtain ⟨e3, _⟩ := F.shared j cj hj hcj
    obtain ⟨a, ha1, ha2⟩ := F.wellFormed.1 e2
    exact ⟨e1.trans e3.symm, a, by rw [e1, ha1], ha1, ha2⟩
  · have := F.allocated
    simpa [Process.start] using this
  · intro i j ci cj hi hj hij hci
    obtain ⟨a, e1, _, _, e4⟩ := F.own i ci hi hci
    refine ⟨?_, a, e1, e4⟩
    by_cases hcj : cj.handler = Handler.NoHandler
    · obtain ⟨e5, _⟩ := F.shared j cj hj hcj
      rw [e1, e5]
      intro e
      simp only [Option.some.injEq] at e
      exact e4 e.symm
    · rcases Nat.lt_or_gt_of_ne hij with h | h
      · exact F.apart i j ci cj h hi hj hci hcj
      · exact fun e => F.apart j i cj ci h hj hi hcj hci e.symm
  · intro s now₁ now₂ beginning handler
    refine ⟨fun h => ?_, fun h => newHTTPClientForDoH_reuse now₁ now₂ beginning s h⟩
    rw [newHTTPClientForDoH_instrumented now₁ now₂ beginning handler s h]
    exact ⟨rfl, rfl, rfl⟩

/-- C10 on the three calls of the test: two with `NoHandler`, then one with
`StdoutHandler`. The first two return the same client, the third another. -/
theorem newHTTPClientForDoH_lifecycle_witness :
    (runDoHCalls [⟨1, 2, 3, Handler.NoHandler⟩, ⟨4, 5, 6, Handler.NoHandler⟩,
        ⟨7, 8, 9, Handler.StdoutHandler⟩] Process.start).1[0]? =
      (runDoHCalls [⟨1, 2, 3, Handler.NoHandler⟩, ⟨4, 5, 6, Handler.NoHandler⟩,
        ⟨7, 8, 9, Handler.StdoutHandler⟩] Process.start).1[1]? ∧
    (runDoHCalls [⟨1, 2, 3, Handler.NoHandler⟩, ⟨4, 5, 6, Handler.NoHandler⟩,
        ⟨7, 8, 9, Handler.StdoutHandler⟩] Process.start).1[2]? ≠
      (runDoHCalls [⟨1, 2, 3, Handler.NoHandler⟩, ⟨4, 5, 6, Handler.NoHandler⟩,
        ⟨7, 8, 9, Handler.StdoutHandler⟩] Process.start).1[0]? ∧
    (runDoHCalls [⟨1, 2, 3, Handler.NoHandler⟩, ⟨4, 5, 6, Handler.NoHandler⟩,
        ⟨7, 8, 9, Handler.StdoutHandler⟩] Process.start).1 = [some 0, some 0, some 1] :=
  ⟨((newHTTPClientForDoH_lifecycle _).1 0 1 _ _ rfl rfl rfl rfl).1,
   ((newHTTPClientForDoH_lifecycle _).2.2.1 2 0 _ _ rfl rfl (by decide) (by decide)).1,
   by decide⟩

end Netx


/-! # Package `internal/mlablocate`: the result of `Query` -/

namespace Mlablocate

open Netx

/-- C11: for every response `resp` that `Query` receives (the request was built
and `HTTPClient.Do` returned `resp` without error): if the status code is not
200, or the decoded `fqdn` field is empty (or missing, the field then keeps its
zero value), `Query` returns the empty string and a non-nil error; if the
status is 200 and the body is read and decodes without error to a non-empty
`fqdn`, `Query` returns that `fqdn` and a nil error; and an error never comes
with a result. -/
theorem query_result {Ctx : Type} (jsonUnmarshal : Unmarshal) (c : Client Ctx) (ctx : Ctx)
    (tool : GoString) (u : URL) (req : Request) (resp : Response)
    (hreq : c.NewRequest ctx ⟨c.Scheme, c.Hostname, tool, []⟩ = (u, .ok req))
    (hresp : c.HTTPClient
      { req with Header := req.Header ++ [("User-Agent".toList, c.UserAgent)] } = .ok resp) :
    ((resp.StatusCode ≠ 200 ∨ (jsonUnmarshal resp.Body.1 ⟨[]⟩).1.FQDN = []) →
      (Query jsonUnmarshal c ctx tool).1.1 = [] ∧
      (Query jsonUnmarshal c ctx tool).1.2 ≠ none) ∧
    ((resp.StatusCode = 200 ∧ resp.Body.2 = none ∧
        (jsonUnmarshal resp.Body.1 ⟨[]⟩).2 = none ∧
        (jsonUnmarshal resp.Body.1 ⟨[]⟩).1.FQDN ≠ []) →
      (Query jsonUnmarshal c ctx tool).1 = ((jsonUnmarshal resp.Body.1 ⟨[]⟩).1.FQDN, none)) ∧
    ((Query jsonUnmarshal c ctx tool).1.2 ≠ none →
      (Query jsonUnmarshal c ctx tool).1.1 = []) := by
  obtain ⟨code, data, rerr⟩ := resp
  have hq : (Query jsonUnmarshal c ctx tool).1 =
      if code ≠ 200 then ([], some (errNon200 code))
      else match rerr with
        | some err => ([], some err)
        | none =>
          match (jsonUnmarshal data ⟨[]⟩).2 with
          | some err => ([], some err)
          | none =>
            if (jsonUnmarshal data ⟨[]⟩).1.FQDN = [] then
              ([], some (errorsNew "mlablocate: returned empty FQDN".toList))
            else ((jsonUnmarshal data ⟨[]⟩).1.FQDN, none) := by
    unfold Query
    simp only [hreq, hresp]
    by_cases hc : code = 200
    · cases rerr with
      | some err => simp [hc]
      | none =>
        rcases hj : jsonUnmarshal data ⟨[]⟩ with ⟨result, uerr⟩
        cases uerr with
        | some err => simp [hc, hj]
        | none =>
          by_cases hf : result.FQDN = []
          · simp [hc, hj, hf]
          · simp [hc, hj, hf]
    · simp [hc]
  rw [hq]
  simp only
  rcases hj : jsonUnmarshal data ⟨[]⟩ with ⟨result, uerr⟩
  by_cases hc : code = 200 <;> cases rerr <;> cases uerr <;>
    by_cases hf : result.FQDN = [] <;> simp [hc, hf]

/-- C11 on three responses: status 200 with the body `{"fqdn":"ndt.example.org"}`,
status 404 with the same body, and status 200 with the body `{}`. -/
theorem query_result_witness :
    (Query sampleUnmarshal
      (sampleClient 200 "\x7b\"fqdn\":\"ndt.example.org\"\x7d".toList) () "ndt".toList).1 =
      ("ndt.example.org".toList, none) ∧
    ((Query sampleUnmarshal
      (sampleClient 404 "\x7b\"fqdn\":\"ndt.example.org\"\x7d".toList) () "ndt".toList).1.1 = [] ∧
     (Query sampleUnmarshal
      (sampleClient 404 "\x7b\"fqdn\":\"ndt.example.org\"\x7d".toList) () "ndt".toList).1.2 ≠
        none) ∧
    ((Query sampleUnmarshal (sampleClient 200 "\x7b\x7d".toList) () "ndt".toList).1.1 = [] ∧
     (Query sampleUnmarshal (sampleClient 200 "\x7b\x7d".toList) () "ndt".toList).1.2 ≠ none) :=
  ⟨(query_result sampleUnmarshal
      (sampleClient 200 "\x7b\"fqdn\":\"ndt.example.org\"\x7d".toList) () "ndt".toList
      _ _ _ rfl rfl).2.1 ⟨rfl, rfl, by decide, by decide⟩,
   (query_result sampleUnmarshal
      (sampleClient 404 "\x7b\"fqdn\":\"ndt.example.org\"\x7d".toList) () "ndt".toList
      _ _ _ rfl rfl).1 (Or.inl (by decide)),
   (query_result sampleUnmarshal (sampleClient 200 "\x7b\x7d".toList) () "ndt".toList
      _ _ _ rfl rfl).1 (Or.inr (by decide))⟩

end Mlablocate


/-! # Package `oonimkall`: unsupported settings -/

namespace Oonimkall

open Netx

/-! ## One call of `EmitFailureStartup` -/

theorem emitFailureStartup_disabled (ee : eventEmitter) (why : GoString)
    (h : ee.disabled failureStartup = true) : ee.EmitFailureStartup why = ee := by
  simp [eventEmitter.EmitFailureStartup, eventEmitter.EmitFailureGeneric, eventEmitter.Emit, h]

theorem emitFailureStartup_ready (ee : eventEmitter) (why : GoString)
    (h : ee.disabled failureStartup = false) (hr : ee.out.ready 0 = true) :
    ee.EmitFailureStartup why =
      { ee with out := { sent := ee.out.sent ++ [startupEvent why]
                         ready := fun n => ee.out.ready (n + 1) } } := by
  simp [eventEmitter.EmitFailureStartup, eventEmitter.EmitFailureGeneric, eventEmitter.Emit,
    h, hr, startupEvent]

theorem emitFailureStartup_late (ee : eventEmitter) (why : GoString)
    (h : ee.disabled failureStartup = false) (hr : ee.out.ready 0 = false) :
    ee.EmitFailureStartup why =
      { ee with timeouts := int64Add ee.timeouts 1
                out := { ee.out with ready := fun n => ee.out.ready (n + 1) } } := by
  simp [eventEmitter.EmitFailureStartup, eventEmitter.EmitFailureGeneric, eventEmitter.Emit,
    h, hr]

theorem emitFailureStartup_keeps_disabled (ee : eventEmitter) (why : GoString) :
    (ee.EmitFailureStartup why).disabled = ee.disabled := by
  cases hd : ee.disabled failureStartup with
  | true => rw [emitFailureStartup_disabled ee why hd]
  | false =>
    cases hr : ee.out.ready 0 with
    | true => rw [emitFailureStartup_ready ee why hd hr]
    | false => rw [emitFailureStartup_late ee why hd hr]

/-! ## Successive calls of `EmitFailureStartup` -/

/-- Nothing happens when `failure.startup` is a disabled event. -/
theorem emitAll_disabled (ee : eventEmitter) (whys : List GoString)
    (h : ee.disabled failureStartup = true) : emitAll ee whys = ee := by
  induction whys with
  | nil => rfl
  | cons w ws ih =>
    simp only [emitAll, List.foldl_cons] at ih ⊢
    rw [emitFailureStartup_disabled ee w h]
    exact ih

/-- A consumer that is always in time gets one event per call. -/
theorem emitAll_ready (ee : eventEmitter) (whys : List GoString)
    (h : ee.disabled failureStartup = false) (hr : ∀ n, ee.out.ready n = true) :
    (emitAll ee whys).out.sent = ee.out.sent ++ whys.map startupEvent ∧
    (emitAll ee whys).timeouts = ee.timeouts := by
  induction whys generalizing ee with
  | nil => simp [emitAll]
  | cons w ws ih =>
    have e := emitFailureStartup_ready ee w h (hr 0)
    have := ih (ee.EmitFailureStartup w) (by rw [e]; exact h)
      (by rw [e]; exact fun n => hr (n + 1))
    simp only [emitAll, List.foldl_cons] at this ⊢
    rw [this.1, this.2, e]
    simp

/-- A consumer that is never in time gets nothing, and every call counts a
timeout. -/
theorem emitAll_late (ee : eventEmitter) (whys : List GoString)
    (h : ee.disabled failureStartup = false) (hr : ∀ n, ee.out.ready n = false) :
    (emitAll ee whys).out.sent = ee.out.sent ∧
    (emitAll ee whys).timeouts = Nat.iterate (fun t => int64Add t 1) whys.length ee.timeouts := by
  induction whys generalizing ee with
  | nil => simp [emitAll]
  | cons w ws ih =>
    have e := emitFailureStartup_late ee w h (hr 0)
    have := ih (ee.EmitFailureStartup w) (by rw [e]; exact h)
      (by rw [e]; exact fun n => hr (n + 1))
    simp only [emitAll, List.foldl_cons] at this ⊢
    rw [this.1, this.2, e]
    simp [Function.iterate_succ_apply]

theorem unsupportedReasons_length (s : settingsRecord) :
    (unsupportedReasons s).length = conditionsHolding s := by
  unfold unsupportedReasons conditionsHolding
  by_cases h1 : s.InputFilepaths = none <;>
  by_cases h2 : s.Options.Backend = [] <;>
  by_cases h3 : s.Options.RandomizeInput = true <;>
  by_cases h4 : s.OutputFilepath ≠ [] ∧ s.Options.NoFileReport = false <;>
  simp [h1, h2, h3, h4]

theorem unsupportedReasons_ne_nil (s : settingsRecord) :
    unsupportedReasons s ≠ [] ↔ Unsupported s := by
  unfold unsupportedReasons Unsupported
  by_cases h1 : s.InputFilepaths = none <;>
  by_cases h2 : s.Options.Backend = [] <;>
  by_cases h3 : s.Options.RandomizeInput = true <;>
  by_cases h4 : s.OutputFilepath ≠ [] ∧ s.Options.NoFileReport = false <;>
  simp [h1, h2, h3, h4]

/-! ## The steps of `hasUnsupportedSettings` -/

theorem foldl_ite_singleton {α β : Type} (f : β → α → β) (c : Prop) [Decidable c] (a : α)
    (b : β) : (if c then [a] else []).foldl f b = if c then f b a else b := by
  split <;> rfl

/-- The function takes the steps of `actions`, in order. -/
theorem hasUnsupportedSettings_steps {L : Type} (r : runner) (logger : chanLogger L) :
    r.hasUnsupportedSettings logger =
      (((actions r.settings).foldl perform
          { emitter := r.emitter, logger := logger, unsupported := false }).unsupported,
       ((actions r.settings).foldl perform
          { emitter := r.emitter, logger := logger, unsupported := false }).emitter,
       ((actions r.settings).foldl perform
          { emitter := r.emitter, logger := logger, unsupported := false }).logger) := by
  simp only [runner.hasUnsupportedSettings, actions, List.foldl_append, foldl_ite_singleton,
    perform]

/-- The failures among the steps are the failures of the conditions that hold. -/
theorem failuresOf_actions (s : settingsRecord) :
    failuresOf (actions s) = unsupportedReasons s := by
  simp only [failuresOf, actions, unsupportedReasons, List.filterMap_append,
    apply_ite (List.filterMap _), List.filterMap_cons, List.filterMap_nil, ite_self,
    List.append_nil]
  cases s.Options.RandomizeInput <;> simp

theorem run_unsupported {L : Type} (as : List Action) (st : Progress L) :
    (as.foldl perform st).unsupported = (st.unsupported || !(failuresOf as).isEmpty) := by
  induction as generalizing st with
  | nil => simp [failuresOf]
  | cons a rest ih =>
    rw [List.foldl_cons, ih]
    cases a with
    | failure why => simp [perform, sadly, failuresOf]
    | warning msg => simp [perform, warn, failuresOf]

/-- When no warn-only option is set, the steps are the failures alone. -/
theorem actions_of_noWarnOnly (s : settingsRecord) (h : NoWarnOnly s) :
    actions s = (unsupportedReasons s).map Action.failure := by
  obtain ⟨h1, h2, h3, h4, h5, h6, h7⟩ := h
  simp only [actions, unsupportedReasons, h1, h2, h3, h4, h5, h6, h7, ne_eq, not_true_eq_false,
    if_false, List.append_nil, List.map_append, apply_ite (List.map _), List.map_cons,
    List.map_nil]
  cases s.Options.RandomizeInput <;> simp

theorem run_failures {L : Type} (whys : List GoString) (st : Progress L) :
    ((whys.map Action.failure).foldl perform st).emitter = emitAll st.emitter whys := by
  induction whys generalizing st with
  | nil => rfl
  | cons w ws ih =>
    simp only [List.map_cons, List.foldl_cons, emitAll] at ih ⊢
    rw [ih]
    rfl

theorem startupRecords_append_other (sent extra : List eventRecord)
    (h : ∀ x ∈ extra, x.Key ≠ failureStartup) :
    (sent ++ extra).filter (fun x => decide (x.Key = failureStartup)) =
      sent.filter (fun x => decide (x.Key = failureStartup)) := by
  rw [List.filter_append]
  have : extra.filter (fun x => decide (x.Key = failureStartup)) = [] := by
    rw [List.filter_eq_nil_iff]
    intro x hx
    simpa using h x hx
  rw [this, List.append_nil]

/-- The `failure.startup` records of a run of steps with a quiet logger: those
of before and, in order, events of failures among the steps, each at most once;
none when the event is disabled or the consumer is never in time, all when the
consumer is always in time. -/
theorem run_startupRecords {L : Type} (as : List Action) (st : Progress L)
    (hq : Quiet st.logger.Warn) :
    ∃ extra, startupRecords (as.foldl perform st).emitter =
        startupRecords st.emitter ++ extra ∧
      extra.Sublist ((failuresOf as).map startupEvent) ∧
      (st.emitter.disabled failureStartup = true → extra = []) ∧
      (st.emitter.disabled failureStartup = false → (∀ n, st.emitter.out.ready n = true) →
        extra = (failuresOf as).map startupEvent) ∧
      (st.emitter.disabled failureStartup = false → (∀ n, st.emitter.out.ready n = false) →
        extra = []) := by
  induction as generalizing st with
  | nil => exact ⟨[], by simp, by simp [failuresOf], fun _ => rfl, fun _ _ => by simp [failuresOf],
      fun _ _ => rfl⟩
  | cons a rest ih =>
    cases a with
    | warning msg =>
      obtain ⟨hd, ⟨more, hm1, hm2⟩, ⟨k, hk⟩⟩ := hq msg st.logger.state st.emitter
      have hsr : startupRecords (perform st (.warning msg)).emitter =
          startupRecords st.emitter := by
        simp only [perform, warn, startupRecords, hm1]
        exact startupRecords_append_other _ _ hm2
      obtain ⟨extra, e1, e2, e3, e4, e5⟩ := ih (perform st (.warning msg)) hq
      have hd2 : (perform st (.warning msg)).emitter.disabled = st.emitter.disabled := hd
      have hk2 : ∀ n, (perform st (.warning msg)).emitter.out.ready n =
          st.emitter.out.ready (n + k) := hk
      refine ⟨extra, ?_, ?_, ?_, ?_, ?_⟩
      · rw [List.foldl_cons, e1, hsr]
      · simpa [failuresOf] using e2
      · intro h
        exact e3 (by rw [hd2]; exact h)
      · intro h hr
        have := e4 (by rw [hd2]; exact h) (fun n => by rw [hk2]; exact hr _)
        simpa [failuresOf] using this
      · intro h hr
        exact e5 (by rw [hd2]; exact h) (fun n => by rw [hk2]; exact hr _)
    | failure why =>
      have hq2 : Quiet (perform st (.failure why)).logger.Warn := hq
      obtain ⟨extra, e1, e2, e3, e4, e5⟩ := ih (perform st (.failure why)) hq2
      have hf : failuresOf (Action.failure why :: rest) = why :: failuresOf rest := by
        simp [failuresOf]
      have hem : (perform st (.failure why)).emitter = st.emitter.EmitFailureStartup why := rfl
      rw [List.foldl_cons, hf]
      cases hd : st.emitter.disabled failureStartup with
      | true =>
        have h0 := emitFailureStartup_disabled st.emitter why hd
        rw [hem, h0] at e1 e3
        exact ⟨extra, e1, List.Sublist.cons _ e2, fun _ => e3 hd,
          fun h => Bool.noConfusion h, fun h => Bool.noConfusion h⟩
      | false =>
        cases hr0 : st.emitter.out.ready 0 with
        | true =>
          have h0 := emitFailureStartup_ready st.emitter why hd hr0
          rw [hem, h0] at e1 e4
          refine ⟨startupEvent why :: extra, ?_, List.Sublist.cons₂ _ e2,
            fun h => Bool.noConfusion h, ?_, ?_⟩
          · rw [e1]
            simp [startupRecords, startupEvent]
          · intro _ hr
            rw [e4 hd (fun n => hr (n + 1))]
            rfl
          · intro _ hr
            rw [hr 0] at hr0
            exact Bool.noConfusion hr0
        | false =>
          have h0 := emitFailureStartup_late st.emitter why hd hr0
          rw [hem, h0] at e1 e5
          refine ⟨extra, e1, List.Sublist.cons _ e2, fun h => Bool.noConfusion h, ?_, ?_⟩
          · intro _ hr
            rw [hr 0] at hr0
            exact Bool.noConfusion hr0
          · intro _ hr
            exact e5 hd (fun n => hr (n + 1))

/-- The sample logger is quiet: its record has the key `log`. -/
theorem sampleLogger_quiet : Quiet sampleLogger.Warn := by
  intro msg l ee
  simp only [sampleLogger, eventEmitter.Emit]
  cases hd : ee.disabled "log".toList with
  | true => exact ⟨by simp, ⟨[], by simp, by simp⟩, ⟨0, fun n => by simp⟩⟩
  | false =>
    cases hr : ee.out.ready 0 with
    | true =>
      refine ⟨by simp, ⟨[⟨"log".toList, .eventValue⟩], by simp, ?_⟩, ⟨1, fun n => by simp⟩⟩
      intro x hx
      simp only [List.mem_singleton] at hx
      subst hx
      decide
    | false => exact ⟨by simp, ⟨[], by simp, by simp⟩, ⟨1, fun n => by simp⟩⟩

/-- C12 as stated fails when `failure.startup` is among the disabled events: with
`Options.Backend` set, one condition holds and `hasUnsupportedSettings` returns
true, but no event is emitted, though the consumer is ready. -/
theorem hasUnsupportedSettings_disabled_no_event :
    ((newRunner (sampleSettings ["failure.startup".toList] "x".toList []) readyChan
      ).hasUnsupportedSettings sampleLogger).1 = true ∧
    conditionsHolding (sampleSettings ["failure.startup".toList] "x".toList []) = 1 ∧
    ((newRunner (sampleSettings ["failure.startup".toList] "x".toList []) readyChan
      ).hasUnsupportedSettings sampleLogger).2.1.out.sent = [] :=
  ⟨by decide, by decide, by decide⟩

/-- C12, amended. For every runner and every logger, which shares the emitter
and the channel with the runner: (1) `hasUnsupportedSettings` returns true if
and only if one of the four conditions holds; (2) the failures of the
conditions that hold are as many as these conditions; (3) the seven warn-only
options do not change the result; (4) a call of `EmitFailureStartup` does
nothing when `failure.startup` is a disabled event, delivers one
`failure.startup` record when the consumer takes it within 250 ms, and
otherwise drops the record and counts one timeout; (5) the function takes the
steps of `actions` in order, one `EmitFailureStartup` per condition that
holds and one `logger.Warn` per warn-only option that is set; (6) when no
warn-only option is set the emitter is left as by one `EmitFailureStartup`
per condition that holds, and (7) with the event enabled and a consumer that
is never in time no record is delivered and one timeout is counted per
condition that holds; (8) when the logger sends no `failure.startup` record
itself, the `failure.startup` records delivered are: none more when the
event is disabled; exactly one per condition that holds when it is enabled
and the consumer is always in time; none more when it is enabled and the
consumer is never in time; and in every case events of conditions that hold,
in order and each at most once, so the warn-only options add none. -/
theorem hasUnsupportedSettings_spec {L : Type} (r : runner) (logger : chanLogger L) :
    ((r.hasUnsupportedSettings logger).1 = true ↔ Unsupported r.settings) ∧
    (unsupportedReasons r.settings).length = conditionsHolding r.settings ∧
    (∀ ca asn country probeASN probeCC probeIP probeNetworkName : GoString,
      (runner.hasUnsupportedSettings
        { r with settings :=
            withWarnOnly r.settings ca asn country probeASN probeCC probeIP probeNetworkName }
        logger).1 = (r.hasUnsupportedSettings logger).1) ∧
    (∀ (ee : eventEmitter) (why : GoString),
      (ee.disabled failureStartup = true → ee.EmitFailureStartup why = ee) ∧
      (ee.disabled failureStartup = false → ee.out.ready 0 = true →
        (ee.EmitFailureStartup why).out.sent = ee.out.sent ++ [startupEvent why] ∧
        (ee.EmitFailureStartup why).timeouts = ee.timeouts) ∧
      (ee.disabled failureStartup = false → ee.out.ready 0 = false →
        (ee.EmitFailureStartup why).out.sent = ee.out.sent ∧
        (ee.EmitFailureStartup why).timeouts = int64Add ee.timeouts 1)) ∧
    ((r.hasUnsupportedSettings logger).2 =
        (((actions r.settings).foldl perform
            { emitter := r.emitter, logger := logger, unsupported := false }).emitter,
         ((actions r.settings).foldl perform
            { emitter := r.emitter, logger := logger, unsupported := false }).logger) ∧
      failuresOf (actions r.settings) = unsupportedReasons r.settings) ∧
    (NoWarnOnly r.settings →
      (r.hasUnsupportedSettings logger).2.1 =
        emitAll r.emitter (unsupportedReasons r.settings)) ∧
    (NoWarnOnly r.settings → r.emitter.disabled failureStartup = false →
      (∀ n, r.emitter.out.ready n = false) →
      (r.hasUnsupportedSettings logger).2.1.out.sent = r.emitter.out.sent ∧
      (r.hasUnsupportedSettings logger).2.1.timeouts =
        Nat.iterate (fun t => int64Add t 1) (conditionsHolding r.settings)
          r.emitter.timeouts) ∧
    (Quiet logger.Warn →
      (r.emitter.disabled failureStartup = true →
        startupRecords (r.hasUnsupportedSettings logger).2.1 = startupRecords r.emitter) ∧
      (r.emitter.disabled failureStartup = false → (∀ n, r.emitter.out.ready n = true) →
        startupRecords (r.hasUnsupportedSettings logger).2.1 =
          startupRecords r.emitter ++ (unsupportedReasons r.settings).map startupEvent) ∧
      (r.emitter.disabled failureStartup = false → (∀ n, r.emitter.out.ready n = false) →
        startupRecords (r.hasUnsupportedSettings logger).2.1 = startupRecords r.emitter) ∧
      (∃ extra, startupRecords (r.hasUnsupportedSettings logger).2.1 =
          startupRecords r.emitter ++ extra ∧
        extra.Sublist ((unsupportedReasons r.settings).map startupEvent))) := by
  have result : ∀ r1 : runner,
      ((r1.hasUnsupportedSettings logger).1 = true ↔ Unsupported r1.settings) := by
    intro r1
    rw [hasUnsupportedSettings_steps, run_unsupported, failuresOf_actions,
      ← unsupportedReasons_ne_nil]
    cases unsupportedReasons r1.settings <;> simp
  have plain : NoWarnOnly r.settings →
      (r.hasUnsupportedSettings logger).2.1 =
        emitAll r.emitter (unsupportedReasons r.settings) := by
    intro h
    rw [hasUnsupportedSettings_steps, actions_of_noWarnOnly r.settings h]
    exact run_failures _ _
  refine ⟨result r, unsupportedReasons_length r.settings, ?_, ?_, ?_, plain, ?_, ?_⟩
  · intro ca asn country probeASN probeCC probeIP probeNetworkName
    rw [Bool.eq_iff_iff, result, result]
    exact Iff.rfl
  · intro ee why
    refine ⟨emitFailureStartup_disabled ee why, fun hd hr => ?_, fun hd hr => ?_⟩
    · rw [emitFailureStartup_ready ee why hd hr]
      exact ⟨rfl, rfl⟩
    · rw [emitFailureStartup_late ee why hd hr]
      exact ⟨rfl, rfl⟩
  · exact ⟨by rw [hasUnsupportedSettings_steps], failuresOf_actions r.settings⟩
  · intro h hd hr
    rw [plain h, ← unsupportedReasons_length]
    exact emitAll_late r.emitter _ hd hr
  · intro hq
    obtain ⟨extra, e1, e2, e3, e4, e5⟩ := run_startupRecords (actions r.settings)
      { emitter := r.emitter, logger := logger, unsupported := false } hq
    rw [failuresOf_actions] at e2 e4
    have hres : (r.hasUnsupportedSettings logger).2.1 =
        ((actions r.settings).foldl perform
          { emitter := r.emitter, logger := logger, unsupported := false }).emitter := by
      rw [hasUnsupportedSettings_steps]
    rw [hres, e1]
    refine ⟨fun hd => ?_, fun hd hr => ?_, fun hd hr => ?_, extra, rfl, e2⟩
    · rw [e3 hd, List.append_nil]
    · rw [e4 hd hr]
    · rw [e5 hd hr, List.append_nil]

/-- C12, amended, on settings with `Options.Backend` set, and the sample logger:
with `Options.ProbeCC` set too, no disabled event and a ready consumer, the one
`failure.startup` event is delivered; with a consumer that is never in time
the record is dropped and one timeout counted; with `failure.startup`
disabled no such record is delivered; and the result is true. -/
theorem hasUnsupportedSettings_spec_witness :
    startupRecords ((newRunner (sampleSettings [] "x".toList "IT".toList) readyChan
        ).hasUnsupportedSettings sampleLogger).2.1 =
      [startupEvent "Options.Backend: not supported".toList] ∧
    (((newRunner (sampleSettings [] "x".toList []) lateChan
        ).hasUnsupportedSettings sampleLogger).2.1.out.sent = [] ∧
     ((newRunner (sampleSettings [] "x".toList []) lateChan
        ).hasUnsupportedSettings sampleLogger).2.1.timeouts = 1) ∧
    startupRecords ((newRunner
        (sampleSettings ["failure.startup".toList] "x".toList "IT".toList) readyChan
        ).hasUnsupportedSettings sampleLogger).2.1 = [] ∧
    ((newRunner (sampleSettings [] "x".toList "IT".toList) readyChan
        ).hasUnsupportedSettings sampleLogger).1 = true :=
  ⟨((hasUnsupportedSettings_spec (newRunner (sampleSettings [] "x".toList "IT".toList) readyChan)
      sampleLogger).2.2.2.2.2.2.2 sampleLogger_quiet).2.1 (by decide) (fun _ => rfl),
   (hasUnsupportedSettings_spec (newRunner (sampleSettings [] "x".toList []) lateChan)
      sampleLogger).2.2.2.2.2.2.1 ⟨rfl, rfl, rfl, rfl, rfl, rfl, rfl⟩ (by decide) (fun _ => rfl),
   ((hasUnsupportedSettings_spec
      (newRunner (sampleSettings ["failure.startup".toList] "x".toList "IT".toList) readyChan)
      sampleLogger).2.2.2.2.2.2.2 sampleLogger_quiet).1 (by decide),
   (hasUnsupportedSettings_spec (newRunner (sampleSettings [] "x".toList "IT".toList) readyChan)
      sampleLogger).1.mpr (Or.inr (Or.inl (by decide)))⟩

end Oonimkall
